import Mathlib

/-!
# Handler normalisation in `engine.go`

A shallow embedding of `src/engine.go` (package `functions`): the signature
checks `validateArguments` and `validateReturns`, the always-failing
`errorHandler`, `reflectHandler` with the adapter closure it builds, and the
server with `newServer` and `ServeHTTP`.

Conventions of the embedding.

* A byte slice is a list of naturals, a Go `string` is a Lean `String`.
* A Go `error` is a `GoError`; a Go pair `([]byte, error)` is `Outcome.ret`
  with two optional components, `none` standing for Go's `nil`.
* `reflect.Type` is reduced to what the source asks of it: `Kind`, `NumIn`,
  `In`, `NumOut`, `Out` and `Implements` for the two interface types the
  source builds (`context.Context` and `error`).
* The user function is a state transformer on a user state `σ`. The call
  `handler.Call(args)` first checks the arguments as `reflect` does and panics
  when it refuses them; a call that runs the function is written to a log of
  argument lists, so that "the user function was called, with these
  arguments" is a statement about the final `World`.
* `encoding/json` is outside the repository and is a parameter (`Json`).
* `net/http` and `io/ioutil` are outside the repository too; the response
  writer, `http.Error` and `ioutil.ReadAll` follow their documented behaviour.
-/

namespace Functions

/-! ## Data model -/

/-- Byte slices; a byte is a natural number below 256. -/
abbrev Bytes := List Nat

/-- The bytes of a text literal. -/
def ascii (s : String) : Bytes := s.toList.map Char.toNat

/-- The byte the JSON encoder puts after each value. -/
def newline : Nat := 10

/-- The kinds of `reflect.Kind`. -/
inductive Kind
  | invalid | bool | int | int8 | int16 | int32 | int64
  | uint | uint8 | uint16 | uint32 | uint64 | uintptr
  | float32 | float64 | complex64 | complex128
  | array | chan | func | interface | map | ptr | slice | string | struct
  | unsafePointer
  deriving DecidableEq, Repr

/-- The text `reflect.Kind.String` prints, used by the `%s` verbs of the source. -/
def Kind.toString : Kind → String
  | .invalid => "invalid" | .bool => "bool" | .int => "int" | .int8 => "int8"
  | .int16 => "int16" | .int32 => "int32" | .int64 => "int64"
  | .uint => "uint" | .uint8 => "uint8" | .uint16 => "uint16"
  | .uint32 => "uint32" | .uint64 => "uint64" | .uintptr => "uintptr"
  | .float32 => "float32" | .float64 => "float64"
  | .complex64 => "complex64" | .complex128 => "complex128"
  | .array => "array" | .chan => "chan" | .func => "func"
  | .interface => "interface" | .map => "map" | .ptr => "ptr"
  | .slice => "slice" | .string => "string" | .struct => "struct"
  | .unsafePointer => "unsafe.Pointer"

/-- The two interface types the source obtains through `reflect.TypeOf(...).Elem()`. -/
inductive IfaceType
  | contextType
  | errorType
  deriving DecidableEq, Repr

/-- The `reflect.Type` of one parameter or one result of a function type. -/
structure ParamType where
  name : String
  kind : Kind
  implementsContext : Bool
  implementsError : Bool
  deriving DecidableEq, Repr

/-- The method `Kind` of a parameter type. -/
def ParamType.Kind (t : ParamType) : Kind := t.kind

/-- The method `Implements` of a parameter type, for the two interfaces of the source. -/
def ParamType.Implements (t : ParamType) : IfaceType → Bool
  | .contextType => t.implementsContext
  | .errorType => t.implementsError

/-- The zero `reflect.Type`; `In` and `Out` answer it outside the range, where Go panics.
Every use in the source is guarded by a test on `NumIn` or `NumOut`. -/
def ParamType.none : ParamType :=
  { name := "", kind := Kind.invalid, implementsContext := false, implementsError := false }

/-- The `reflect.Type` of the raw handler value: its kind and, for a function
type, its parameter and result types in order. The source never asks
`IsVariadic`; that a function type is variadic shows in what `handler.Call`
accepts (`UserFunc.refuses`), its last parameter being listed here with its
slice type, as `In` gives it. -/
structure HandlerType where
  kind : Kind
  ins : List ParamType
  outs : List ParamType
  deriving DecidableEq, Repr

/-- The method `Kind` of the handler type. -/
def HandlerType.Kind (t : HandlerType) : Kind := t.kind

/-- The method `NumIn`. -/
def HandlerType.NumIn (t : HandlerType) : Nat := t.ins.length

/-- The method `In`. -/
def HandlerType.In (t : HandlerType) (i : Nat) : ParamType := t.ins.getD i ParamType.none

/-- The method `NumOut`. -/
def HandlerType.NumOut (t : HandlerType) : Nat := t.outs.length

/-- The method `Out`. -/
def HandlerType.Out (t : HandlerType) (i : Nat) : ParamType := t.outs.getD i ParamType.none

/-- A `context.Context` value, identified by a number. -/
structure Context where
  id : Nat
  deriving DecidableEq, Repr

/-- A non-nil Go `error`, with the text its `Error` method returns. -/
structure GoError where
  msg : String
  deriving DecidableEq, Repr

/-- The method `Error`. -/
def GoError.Error (e : GoError) : String := e.msg

/-- The error built by `errors.New`. -/
def errorsNew (text : String) : GoError := { msg := text }

/-- The error built by `fmt.Errorf`, given the formatted text. -/
def Errorf (text : String) : GoError := { msg := text }

/-- A value as `reflect.Value.Interface` shows it: the nil interface, a context,
a non-nil value whose dynamic type implements `error`, or user data. -/
inductive Value (α : Type)
  | nil
  | context (c : Context)
  | error (e : GoError)
  | data (a : α)
  deriving DecidableEq, Repr

/-- The test `errVal, ok := v.Interface().(error); ok && errVal != nil`. -/
def Value.asError {α : Type} : Value α → Option GoError
  | .error e => some e
  | _ => Option.none

/-- What an invocation observes and changes: the log of the argument lists on
which `handler.Call` ran the user function, oldest first, and the user
function's own state. -/
structure World (α σ : Type) where
  calls : List (List (Value α))
  state : σ

/-- The user function behind the raw handler value, as `reflect.Value.Call`
reaches it. Before it runs the function, `Call` checks the arguments against
the function type: their number, and that each is assignable to its parameter
type, a variadic function taking the arguments after the fixed ones one by one
as elements of its last parameter. It panics when the check fails. `refuses
args` is the text of that panic, `none` when the arguments are accepted. `run`
is the function itself: from accepted arguments and its state to the returned
values and its new state. -/
structure UserFunc (α σ : Type) where
  refuses : List (Value α) → Option String
  run : List (Value α) → σ → List (Value α) × σ

/-- What applying the function value leaves: the returned values and the new
state. A refused call returns no value and leaves the state as it was. -/
def UserFunc.result {α σ : Type} (fn : UserFunc α σ) (args : List (Value α)) (st : σ) :
    List (Value α) × σ :=
  match fn.refuses args with
  | Option.none => fn.run args st
  | some _ => ([], st)

instance {α σ : Type} : CoeFun (UserFunc α σ) (fun _ => List (Value α) → σ → List (Value α) × σ) :=
  ⟨UserFunc.result⟩

/-- The call `handler.Call(args)`: it panics with the text of `refuses` when the
arguments are refused, the user function not being run; else it runs the user
function, logs the arguments and returns the values. -/
def Call {α σ : Type} (fn : UserFunc α σ) (args : List (Value α)) (w : World α σ) :
    Except String (List (Value α)) × World α σ :=
  match fn.refuses args with
  | some msg => (.error msg, w)
  | Option.none =>
    (.ok (fn.run args w.state).1,
      { calls := w.calls ++ [args], state := (fn.run args w.state).2 })

/-- What `Invoke` does: it returns a pair `([]byte, error)`, or the goroutine panics. -/
inductive Outcome
  | ret (data : Option Bytes) (err : Option GoError)
  | panicked (msg : String)
  deriving DecidableEq, Repr

/-- The interface `Handler`, with its one method. -/
structure Handler (α σ : Type) where
  Invoke : Context → Bytes → World α σ → Outcome × World α σ

/-- The function type `bytesHandlerFunc`. -/
abbrev bytesHandlerFunc (α σ : Type) := Context → Bytes → World α σ → Outcome × World α σ

/-- The method `Invoke` of `bytesHandlerFunc`, which makes it a `Handler`. -/
def bytesHandlerFunc.Invoke {α σ : Type} (h : bytesHandlerFunc α σ) : Handler α σ :=
  { Invoke := fun ctx payload w => h ctx payload w }

/-- The struct `server`; the embedded `Handler` is nil until `newServer` sets it. -/
structure server (α σ : Type) where
  Handler : Option (Handler α σ)
  baseContext : Context
  jsonResponseEscapeHTML : Bool
  jsonResponseIndentPrefix : String
  jsonResponseIndentValue : String

/-- The package `encoding/json` as the adapter uses it. `decode t payload` is
`json.NewDecoder(bytes.NewBuffer(payload)).Decode` into a fresh value of type
`t`; `encode esc pre ind v` is what `Encode(v)` writes to the empty buffer
`out` after `SetEscapeHTML(esc)` and `SetIndent(pre, ind)`. -/
structure Json (α : Type) where
  decode : ParamType → Bytes → Except GoError (Value α)
  encode : Bool → String → String → Value α → Except GoError Bytes

/-- The raw handler value behind a non-nil `interface{}`: its dynamic type, the
result of the type assertion `handlerFunc.(Handler)` (a value of any type with
a method `Invoke`, function types included, is a `Handler`), and, for a
function value, the function that `reflect.ValueOf(handlerFunc).Call` reaches.
A nil function value and a user function that panics itself are outside the
embedding. -/
structure RawValue (α σ : Type) where
  type : HandlerType
  asHandler : Option (Handler α σ)
  fn : UserFunc α σ

/-! ## The functions of `engine.go` -/

/-- The function `errorHandler`. -/
def errorHandler {α σ : Type} (err : GoError) : Handler α σ :=
  bytesHandlerFunc.Invoke (fun _ _ w => (Outcome.ret Option.none (some err), w))

/-- The function `validateArguments`. -/
def validateArguments (handler : HandlerType) : Bool × Option GoError :=
  if handler.NumIn > 2 then
    (false, some (Errorf
      ("handlers may not take more than two arguments, but handler takes "
        ++ toString handler.NumIn)))
  else if handler.NumIn > 0 then
    let argumentType := handler.In 0
    let handlerTakesContext := argumentType.Implements IfaceType.contextType
    if handler.NumIn > 1 && !handlerTakesContext then
      (false, some (Errorf
        ("handler takes two arguments, but the first is not Context. got "
          ++ argumentType.Kind.toString)))
    else
      (handlerTakesContext, Option.none)
  else
    (false, Option.none)

/-- The function `validateReturns`. -/
def validateReturns (handler : HandlerType) : Option GoError :=
  if handler.NumOut > 2 then
    some (Errorf "handler may not return more than two values")
  else if handler.NumOut > 1 then
    if !(handler.Out 1).Implements IfaceType.errorType then
      some (Errorf "handler returns two values, but the second does not implement error")
    else Option.none
  else if handler.NumOut = 1 then
    if !(handler.Out 0).Implements IfaceType.errorType then
      some (Errorf "handler returns a single value, but it does not implement error")
    else Option.none
  else Option.none

/-- Lines 151 to 154 of the closure in `reflectHandler`: the value to encode is
the first returned value when there is more than one, else the nil interface. -/
def responseValue {α : Type} (response : List (Value α)) : Value α :=
  if response.length > 1 then response.getD 0 Value.nil else Value.nil

/-- Lines 144 to 165 of the closure in `reflectHandler`, on the values the call
returned: return the error if the last value is one, else encode the payload
(or the nil interface) and strip the last byte unless indentation is set.
The slice expression `responseBytes[:len(responseBytes)-1]` panics on an empty
buffer. -/
def respond {α σ : Type} (json : Json α) (s : server α σ) (response : List (Value α)) :
    Outcome :=
  match (if response.length > 0 then
          (response.getD (response.length - 1) Value.nil).asError else Option.none) with
  | some errVal => Outcome.ret Option.none (some errVal)
  | Option.none =>
    let val : Value α := responseValue response
    match json.encode s.jsonResponseEscapeHTML s.jsonResponseIndentPrefix
        s.jsonResponseIndentValue val with
    | .error err => Outcome.ret Option.none (some err)
    | .ok responseBytes =>
      if s.jsonResponseIndentValue == "" && s.jsonResponseIndentPrefix == "" then
        if responseBytes.length = 0 then
          Outcome.panicked "slice bounds out of range [:-1]"
        else
          Outcome.ret (some (responseBytes.take (responseBytes.length - 1))) Option.none
      else
        Outcome.ret (some responseBytes) Option.none

/-- Lines 142 to 165 of the closure in `reflectHandler`: call the user function
with `handler.Call(args)`, whose panic is the panic of the invocation, and go
on with `respond` on the returned values. -/
def callAndRespond {α σ : Type} (json : Json α) (handler : UserFunc α σ) (s : server α σ)
    (args : List (Value α)) (w : World α σ) : Outcome × World α σ :=
  match (Call handler args w).1 with
  | .error msg => (Outcome.panicked msg, (Call handler args w).2)
  | .ok response => (respond json s response, (Call handler args w).2)

/-- The closure `reflectHandler` returns once both validations have passed
(lines 120 to 166): build the arguments, decoding the event if the signature
has one, then go on with `callAndRespond`. -/
def adapter {α σ : Type} (json : Json α) (handlerType : HandlerType) (handler : UserFunc α σ)
    (takesContext : Bool) (s : server α σ) : Handler α σ :=
  bytesHandlerFunc.Invoke (fun ctx payload w =>
    let args : List (Value α) := []
    let args := if takesContext then args ++ [Value.context ctx] else args
    if (handlerType.NumIn == 1 && !takesContext) || handlerType.NumIn == 2 then
      let eventType := handlerType.In (handlerType.NumIn - 1)
      match json.decode eventType payload with
      | .error err => (Outcome.ret Option.none (some err), w)
      | .ok event => callAndRespond json handler s (args ++ [event]) w
    else
      callAndRespond json handler s args w)

/-- The function `reflectHandler`; `none` is the nil `interface{}`. -/
def reflectHandler {α σ : Type} (json : Json α) (handlerFunc : Option (RawValue α σ))
    (s : server α σ) : Handler α σ :=
  match handlerFunc with
  | Option.none => errorHandler (errorsNew "handler is nil")
  | some v =>
    match v.asHandler with
    | some handler => handler
    | Option.none =>
      let handlerType := v.type
      if handlerType.Kind != Kind.func then
        errorHandler (Errorf
          ("handler kind " ++ handlerType.Kind.toString ++ " is not " ++ Kind.func.toString))
      else
        match validateArguments handlerType with
        | (_, some err) => errorHandler err
        | (takesContext, Option.none) =>
          match validateReturns handlerType with
          | some err => errorHandler err
          | Option.none => adapter json handlerType v.fn takesContext s

/-! ## The HTTP side of `engine.go`

The packages `net/http` and `io/ioutil` are outside the repository. What
`ServeHTTP` uses of them is modelled after their documented behaviour: the
status code is fixed by the first `WriteHeader`, `Write` sends the status 200
first when no header has been written, and `http.Error` writes the header with
the given code and then the message with `fmt.Fprintln`, that is, followed by a
newline byte. Header fields are left out. -/

/-- The UTF-8 bytes of a Go string. -/
def utf8 (s : String) : Bytes := (s.data.flatMap String.utf8EncodeChar).map UInt8.toNat

/-- The constant `http.StatusOK`. -/
def StatusOK : Nat := 200

/-- The constant `http.StatusBadRequest`. -/
def StatusBadRequest : Nat := 400

/-- The constant `http.StatusInternalServerError`. -/
def StatusInternalServerError : Nat := 500

/-- The state of an `http.ResponseWriter`: the status code once the header has
been written, and the body bytes written so far. -/
structure ResponseWriter where
  status : Option Nat
  body : Bytes
  deriving DecidableEq, Repr

/-- The response writer a request starts with. -/
def ResponseWriter.fresh : ResponseWriter := { status := Option.none, body := [] }

/-- The method `WriteHeader`: the first call fixes the status code. -/
def ResponseWriter.WriteHeader (w : ResponseWriter) (code : Nat) : ResponseWriter :=
  match w.status with
  | some _ => w
  | Option.none => { w with status := some code }

/-- The method `Write`: it calls `WriteHeader(http.StatusOK)` if no header has
been written, then appends the data to the body. -/
def ResponseWriter.Write (w : ResponseWriter) (data : Bytes) : ResponseWriter :=
  { (w.WriteHeader StatusOK) with body := (w.WriteHeader StatusOK).body ++ data }

/-- The function `http.Error`: `w.WriteHeader(code)` and `fmt.Fprintln(w, error)`. -/
def httpError (w : ResponseWriter) (error : String) (code : Nat) : ResponseWriter :=
  (w.WriteHeader code).Write (utf8 error ++ [newline])

/-- The request as `ServeHTTP` sees it: what `ioutil.ReadAll(req.Body)` returns,
the bytes read and the error if reading failed. -/
structure Request where
  body : Bytes
  readErr : Option GoError
  deriving DecidableEq, Repr

/-- The call `ioutil.ReadAll(req.Body)`. -/
def ioutilReadAll (req : Request) : Bytes × Option GoError := (req.body, req.readErr)

/-- What `ServeHTTP` observes and changes besides the response writer: the world
of the handler and a log of the calls `s.Invoke(ctx, payload)`, oldest first. -/
structure ServeState (α σ : Type) where
  world : World α σ
  invoked : List (Context × Bytes)

/-- How `ServeHTTP` ends: it returns, leaving the response writer in a state,
or the goroutine panics. -/
inductive Served
  | done (w : ResponseWriter)
  | panicked (msg : String)
  deriving DecidableEq, Repr

/-- The method `ServeHTTP` of `server`. A nil embedded `Handler` makes the
call `s.Invoke` panic, and a panic of `Invoke` is a panic of `ServeHTTP`. -/
def server.ServeHTTP {α σ : Type} (s : server α σ) (w : ResponseWriter) (req : Request)
    (st : ServeState α σ) : Served × ServeState α σ :=
  match (ioutilReadAll req).2 with
  | some _ => (Served.done (httpError w "can't read body" StatusBadRequest), st)
  | Option.none =>
    match s.Handler with
    | Option.none => (Served.panicked "invalid memory address or nil pointer dereference", st)
    | some h =>
      let r := h.Invoke s.baseContext (ioutilReadAll req).1 st.world
      let st1 : ServeState α σ :=
        { world := r.2, invoked := st.invoked ++ [(s.baseContext, (ioutilReadAll req).1)] }
      match r.1 with
      | Outcome.panicked msg => (Served.panicked msg, st1)
      | Outcome.ret data err =>
        match err with
        | some e => (Served.done (httpError w e.Error StatusInternalServerError), st1)
        | Option.none => (Served.done (w.Write (data.getD [])), st1)

/-- The value `context.Background()`. -/
def contextBackground : Context := { id := 0 }

/-- The function `newServer`. In the source the closure built by
`reflectHandler` holds the pointer `s`, whose field `Handler` is set afterwards;
the closure reads the three `jsonResponse` fields only. -/
def newServer {α σ : Type} (json : Json α) (handlerFunc : Option (RawValue α σ)) :
    server α σ :=
  let s : server α σ :=
    { Handler := Option.none, baseContext := contextBackground,
      jsonResponseEscapeHTML := false, jsonResponseIndentPrefix := "",
      jsonResponseIndentValue := "" }
  { s with Handler := some (reflectHandler json handlerFunc s) }

/-! ## The vocabulary of the specification -/

/-- The argument shapes of the table of supported signatures. -/
inductive ArgShape
  | noArgs
  | event
  | ctx
  | ctxEvent
  deriving DecidableEq, Repr

/-- The return shapes of the table of supported signatures. -/
inductive RetShape
  | noReturns
  | error
  | payloadError
  deriving DecidableEq, Repr

/-- The ten rows of the table of supported handler signatures, in its order. -/
def supportedSignatures : List (ArgShape × RetShape) :=
  [ (.noArgs, .noReturns), (.event, .noReturns), (.ctx, .noReturns), (.ctxEvent, .noReturns),
    (.noArgs, .error), (.event, .error), (.ctxEvent, .error),
    (.noArgs, .payloadError), (.event, .payloadError), (.ctxEvent, .payloadError) ]

/-- The argument shape of a function type, if it has one: a single parameter is
the context when its type implements `Context` and the event otherwise; of two
parameters the first has to be the context. -/
def argShape (t : HandlerType) : Option ArgShape :=
  match t.ins with
  | [] => some .noArgs
  | [a] => if a.implementsContext then some .ctx else some .event
  | [a, _] => if a.implementsContext then some .ctxEvent else Option.none
  | _ => Option.none

/-- The return shape of a function type, if it has one. -/
def retShape (t : HandlerType) : Option RetShape :=
  match t.outs with
  | [] => some .noReturns
  | [e] => if e.implementsError then some .error else Option.none
  | [_, e] => if e.implementsError then some .payloadError else Option.none
  | _ => Option.none

/-- Whether a function type is one of the ten rows of the table. -/
def inTable (t : HandlerType) : Bool :=
  match argShape t, retShape t with
  | some a, some r => decide ((a, r) ∈ supportedSignatures)
  | _, _ => false

/-- Whether the signature declares an event argument, in the table's terms. -/
def declaresEvent (t : HandlerType) : Bool :=
  argShape t == some .event || argShape t == some .ctxEvent

/-- Whether the first parameter exists and implements `Context`. -/
def firstIsContext (t : HandlerType) : Bool :=
  match t.ins with
  | [] => false
  | a :: _ => a.implementsContext

/-- The type of the last parameter, which is the event's type when there is an event. -/
def eventType (t : HandlerType) : ParamType := t.ins.getLastD ParamType.none

/-- The argument list the specification prescribes: the context if the first
parameter implements `Context`, then the event if the signature declares one. -/
def expectedArgs {α : Type} (t : HandlerType) (ctx : Context) (event : Value α) :
    List (Value α) :=
  (if firstIsContext t then [Value.context ctx] else []) ++
    (if declaresEvent t then [event] else [])

/-- A raw handler the normaliser adapts: a function value that does not itself
implement `Handler` and whose signature passes both validations. -/
def Valid {α σ : Type} (v : RawValue α σ) : Prop :=
  v.asHandler = Option.none ∧ v.type.Kind = Kind.func ∧
    (validateArguments v.type).2 = Option.none ∧ validateReturns v.type = Option.none

/-- A raw handler of the kinds the normaliser turns into an always-failing
handler whatever else holds of it: the nil interface, or a value that is no
`Handler` and is not of function kind, or is a function with three or more
parameters or three or more return values. -/
def Misconfigured {α σ : Type} : Option (RawValue α σ) → Prop
  | Option.none => True
  | some v => v.asHandler = Option.none ∧
      (v.type.Kind ≠ Kind.func ∨ 3 ≤ v.type.NumIn ∨ 3 ≤ v.type.NumOut)

/-- The guarantee of Go's type system that a call, once its arguments are
accepted, returns as many values as the function type declares. -/
def ReturnsDeclared {α σ : Type} (v : RawValue α σ) : Prop :=
  ∀ (args : List (Value α)) (st : σ),
    v.fn.refuses args = Option.none → (v.fn args st).1.length = v.type.NumOut

/-- The documented behaviour of `Encoder.Encode` that each encoded value is
followed by a newline. -/
def Json.EndsWithNewline {α : Type} (json : Json α) : Prop :=
  ∀ (esc : Bool) (pre ind : String) (v : Value α) (out : Bytes),
    json.encode esc pre ind v = .ok out → out.getLast? = some newline

/-- The behaviour of `Encoder.Encode` without indentation that the JSON text
before the final newline is compact and so does not itself end in a newline. -/
def Json.CompactWithoutIndent {α : Type} (json : Json α) : Prop :=
  ∀ (esc : Bool) (v : Value α) (out : Bytes),
    json.encode esc "" "" v = .ok out → out.dropLast.getLast? ≠ some newline

/-- The behaviour of `Encoder.Encode` on the nil interface: it writes `null`
and a newline, whatever the escaping and the indentation. -/
def Json.EncodesNil {α : Type} (json : Json α) : Prop :=
  ∀ (esc : Bool) (pre ind : String),
    json.encode esc pre ind Value.nil = .ok (ascii "null" ++ [newline])

/-- Modelled from the spec: the encoder of `encoding/json`, which is not part of
the repository. The spec speaks of "the encoder's trailing newline terminator"
and of what "the configured encoder would produce, including any trailing
newline": a successful `Encode` writes the JSON text of the value and then a
newline. The JSON text itself, `marshal`, stays a parameter. -/
def specEncode {α : Type} (marshal : Bool → String → String → Value α → Except GoError Bytes)
    (esc : Bool) (pre ind : String) (v : Value α) : Except GoError Bytes :=
  match marshal esc pre ind v with
  | .ok text => .ok (text ++ [newline])
  | .error err => .error err

/-- A sequence of invocations of one handler, each in the world the one before left. -/
def invokeAll {α σ : Type} (h : Handler α σ) :
    List (Context × Bytes) → World α σ → List Outcome × World α σ
  | [], w => ([], w)
  | (ctx, payload) :: rest, w =>
    ((h.Invoke ctx payload w).1 :: (invokeAll h rest (h.Invoke ctx payload w).2).1,
      (invokeAll h rest (h.Invoke ctx payload w).2).2)

/-! ## Sample instances

Concrete instances of the parameters, on which the statements below are
evaluated: a user data type, a small stand-in for `encoding/json` that agrees
with it on the payloads and values used here and reports an error elsewhere,
and a few raw handler values. -/

/-- Sample user data: a byte slice, a struct with one string field, an integer. -/
inductive Sample
  | bytes (b : Bytes)
  | record (field value : Bytes)
  | int (n : Nat)
  deriving DecidableEq, Repr

/-- The byte of the double quote. -/
def quote : Nat := 34

/-- Sample decoder for a JSON object with one string member, `{"field":"value"}`. -/
def sampleDecodeRecord (payload : Bytes) : Except GoError (Value Sample) :=
  match payload with
  | 123 :: 34 :: rest =>
    match rest.dropWhile (fun b => b != quote) with
    | 34 :: 58 :: 34 :: rest2 =>
      match rest2.dropWhile (fun b => b != quote) with
      | [34, 125] =>
        .ok (Value.data (Sample.record (rest.takeWhile (fun b => b != quote))
          (rest2.takeWhile (fun b => b != quote))))
      | _ => .error (errorsNew "sample decoder: unsupported input")
    | _ => .error (errorsNew "sample decoder: unsupported input")
  | _ => .error (errorsNew "sample decoder: unsupported input")

/-- Sample decoder for a decimal number. -/
def sampleDecodeInt (payload : Bytes) : Except GoError (Value Sample) :=
  if payload.all (fun b => decide (48 ≤ b) && decide (b ≤ 57)) then
    .ok (Value.data (Sample.int (payload.foldl (fun n b => 10 * n + (b - 48)) 0)))
  else .error (errorsNew "sample decoder: unsupported input")

/-- Sample decoder on a text without final newlines: the empty text is `EOF`; a
struct type takes an object with one string member, a slice type the empty
array, an int type a decimal number. -/
def sampleDecodeText (t : ParamType) (payload : Bytes) : Except GoError (Value Sample) :=
  if payload = [] then .error (errorsNew "EOF")
  else
    match t.kind with
    | Kind.struct => sampleDecodeRecord payload
    | Kind.slice =>
      if payload = ascii "[]" then .ok (Value.data (Sample.bytes []))
      else .error (errorsNew "sample decoder: unsupported input")
    | Kind.int => sampleDecodeInt payload
    | _ => .error (errorsNew "sample decoder: unsupported input")

/-- The payload without the newlines at its end. -/
def trimNewlines (payload : Bytes) : Bytes :=
  (payload.reverse.dropWhile (fun b => b == newline)).reverse

/-- Sample decoder: newlines after the JSON value are skipped, then the text is
decoded by `sampleDecodeText`. -/
def sampleDecode (t : ParamType) (payload : Bytes) : Except GoError (Value Sample) :=
  sampleDecodeText t (trimNewlines payload)

/-- Sample JSON text of a value, without the final newline: `null` for the nil
interface, an object with one member for a record (over several lines when
indentation is set), the empty string for the empty byte slice. -/
def sampleMarshal (pre ind : String) : Value Sample → Except GoError Bytes
  | Value.nil => .ok (ascii "null")
  | Value.data (Sample.record f v) =>
    if pre = "" ∧ ind = "" then
      .ok (ascii "\x7b\"" ++ f ++ ascii "\":\"" ++ v ++ ascii "\"\x7d")
    else
      .ok (ascii "\x7b\n" ++ ascii pre ++ ascii ind ++ ascii "\"" ++ f ++ ascii "\": \"" ++ v
        ++ ascii "\"\n" ++ ascii pre ++ ascii "\x7d")
  | Value.data (Sample.bytes []) => .ok (ascii "\"\"")
  | _ => .error (errorsNew "sample encoder: unsupported value")

/-- Sample encoder: the JSON text followed by a newline. -/
def sampleEncode (_esc : Bool) (pre ind : String) (v : Value Sample) : Except GoError Bytes :=
  match sampleMarshal pre ind v with
  | .ok body => .ok (body ++ [newline])
  | .error err => .error err

/-- The sample stand-in for `encoding/json`. -/
def sampleJson : Json Sample := { decode := sampleDecode, encode := sampleEncode }

/-- The type `context.Context`. -/
def contextParam : ParamType :=
  { name := "context.Context", kind := Kind.interface,
    implementsContext := true, implementsError := false }

/-- The type `error`. -/
def errorParam : ParamType :=
  { name := "error", kind := Kind.interface, implementsContext := false, implementsError := true }

/-- The type `int`. -/
def intParam : ParamType :=
  { name := "int", kind := Kind.int, implementsContext := false, implementsError := false }

/-- The type `[]byte`. -/
def bytesParam : ParamType :=
  { name := "[]uint8", kind := Kind.slice, implementsContext := false, implementsError := false }

/-- A struct type with one string field. -/
def structParam (name : String) : ParamType :=
  { name := name, kind := Kind.struct, implementsContext := false, implementsError := false }

/-- The configuration `newServer` sets: no HTML escaping, no indentation. -/
def defaultServer (α σ : Type) : server α σ :=
  { Handler := Option.none, baseContext := { id := 0 }, jsonResponseEscapeHTML := false,
    jsonResponseIndentPrefix := "", jsonResponseIndentValue := "" }

/-- A configuration with an indent prefix and no indent value. -/
def prefixedServer (α σ : Type) : server α σ :=
  { Handler := Option.none, baseContext := { id := 0 }, jsonResponseEscapeHTML := false,
    jsonResponseIndentPrefix := ">", jsonResponseIndentValue := "" }

/-- The panic text the sample function values give for arguments their types
do not take; `reflect` names the offending types in its own texts. -/
def callPanic : String := "reflect: Call with arguments the function does not take"

/-- A function value for which `Call` accepts every argument list; it stands
for functions whose calls are not reached or whose arguments are not looked at. -/
def accepting {α σ : Type} (run : List (Value α) → σ → List (Value α) × σ) : UserFunc α σ :=
  { refuses := fun _ => Option.none, run := run }

/-- The handler of Scenario A,
`func(ctx context.Context, event struct{Name string}) (struct{Msg string}, error)`
returning `{Msg: "hi " + event.Name}` and a nil error. -/
def greeter : RawValue Sample Unit :=
  { type := { kind := Kind.func,
              ins := [contextParam, structParam "struct { Name string }"],
              outs := [structParam "struct { Msg string }", errorParam] },
    asHandler := Option.none,
    fn :=
      { refuses := fun args =>
          match args with
          | [Value.context _, Value.data (Sample.record _ _)] => Option.none
          | _ => some callPanic,
        run := fun args st =>
          match args with
          | [Value.context _, Value.data (Sample.record _ name)] =>
            ([Value.data (Sample.record (ascii "Msg") (ascii "hi " ++ name)), Value.nil], st)
          | _ => ([Value.data (Sample.record (ascii "Msg") (ascii "hi ")), Value.nil], st) } }

/-- A value of the source's function type `bytesHandlerFunc`: it returns the
payload it is given and records that payload in the user state. -/
def echoFunc : bytesHandlerFunc Sample (List Bytes) :=
  fun _ payload w =>
    (Outcome.ret (some payload) Option.none, { w with state := w.state ++ [payload] })

/-- The function `echoFunc` as a raw handler value. Its type
`func(context.Context, []byte) ([]byte, error)` is the last row of the table, and
through the method `Invoke` of `bytesHandlerFunc` it is a `Handler`. -/
def rawEcho : RawValue Sample (List Bytes) :=
  { type := { kind := Kind.func, ins := [contextParam, bytesParam],
              outs := [bytesParam, errorParam] },
    asHandler := some (bytesHandlerFunc.Invoke echoFunc),
    fn :=
      { refuses := fun args =>
          match args with
          | [Value.context _, Value.data (Sample.bytes _)] => Option.none
          | _ => some callPanic,
        run := fun args st =>
          match args with
          | [Value.context _, Value.data (Sample.bytes b)] =>
            ([Value.data (Sample.bytes b), Value.nil], st ++ [b])
          | _ => ([Value.data (Sample.bytes []), Value.nil], st) } }

/-- A handler `func(ctx context.Context) error` that returns nil. -/
def ctxOnly : RawValue Sample Unit :=
  { type := { kind := Kind.func, ins := [contextParam], outs := [errorParam] },
    asHandler := Option.none,
    fn :=
      { refuses := fun args =>
          match args with
          | [Value.context _] => Option.none
          | _ => some callPanic,
        run := fun _ st => ([Value.nil], st) } }

/-- The handler of Scenario B, `func(a, b, c int)`; the user state counts its calls. -/
def triple : RawValue Sample Nat :=
  { type := { kind := Kind.func, ins := [intParam, intParam, intParam], outs := [] },
    asHandler := Option.none,
    fn := accepting (fun _ st => ([], st + 1)) }

/-- A function `func(a, b, c int) (int, int, int)`: too many parameters and too
many return values. -/
def tripleBadReturns : RawValue Sample Nat :=
  { type := { kind := Kind.func, ins := [intParam, intParam, intParam],
              outs := [intParam, intParam, intParam] },
    asHandler := Option.none,
    fn := accepting (fun _ st => ([Value.data (Sample.int 0), Value.data (Sample.int 0),
      Value.data (Sample.int 0)], st + 1)) }

/-- A value of a function type with three parameters that has a method `Invoke`,
`type triple func(a, b, c int)` with
`func (t triple) Invoke(ctx context.Context, p []byte) ([]byte, error)`
calling `t(1, 2, 3)` and returning `[]byte("ok"), nil`. -/
def tripleHandler : RawValue Sample Nat :=
  { type := { kind := Kind.func, ins := [intParam, intParam, intParam], outs := [] },
    asHandler := some
      { Invoke := fun _ _ w =>
          (Outcome.ret (some (ascii "ok")) Option.none, { w with state := w.state + 1 }) },
    fn := accepting (fun _ st => ([], st + 1)) }

/-- A raw handler that is the integer `5`, not a function. -/
def notAFunction : RawValue Sample Nat :=
  { type := { kind := Kind.int, ins := [], outs := [] },
    asHandler := Option.none,
    fn := accepting (fun _ st => ([], st)) }

/-- The handler of Scenario C, `func(event int) error`, returning the error `boom`. -/
def boom : RawValue Sample Nat :=
  { type := { kind := Kind.func, ins := [intParam], outs := [errorParam] },
    asHandler := Option.none,
    fn :=
      { refuses := fun args =>
          match args with
          | [Value.data (Sample.int _)] => Option.none
          | _ => some callPanic,
        run := fun _ st => ([Value.error (errorsNew "boom")], st + 1) } }

/-- An encoder that fails on every value. -/
def failingEncode (_esc : Bool) (_pre _ind : String) (_v : Value Sample) :
    Except GoError Bytes :=
  .error (errorsNew "encoder called")

/-- A raw handler that is a struct value with a method `Invoke`, not a
function: it answers every payload with the bytes `pong`. -/
def structHandler : RawValue Sample Nat :=
  { type := { kind := Kind.struct, ins := [], outs := [] },
    asHandler := some
      { Invoke := fun _ _ w =>
          (Outcome.ret (some (ascii "pong")) Option.none, { w with state := w.state + 1 }) },
    fn := accepting (fun _ st => ([], st)) }

/-- A handler `func()` without parameters and return values; the user state
counts its calls. -/
def ticker : RawValue Sample Nat :=
  { type := { kind := Kind.func, ins := [], outs := [] },
    asHandler := Option.none,
    fn :=
      { refuses := fun args =>
          match args with
          | [] => Option.none
          | _ => some callPanic,
        run := fun _ st => ([], st + 1) } }

/-- A variadic handler `func(xs ...byte) {}`; the user state counts its calls.
Its type has one parameter, of type `[]byte`, so the adapter decodes the
payload into a `[]byte` and passes that one value, which `Call` takes for an
element of `xs` and refuses, a `[]uint8` not being a `uint8`. The sample data
has no single byte value, so only the empty argument list is accepted. -/
def variadicBytes : RawValue Sample Nat :=
  { type := { kind := Kind.func, ins := [bytesParam], outs := [] },
    asHandler := Option.none,
    fn :=
      { refuses := fun args =>
          match args with
          | [] => Option.none
          | _ => some "reflect: cannot use []uint8 as type uint8 in Call",
        run := fun _ st => ([], st + 1) } }

/-- An interface type `myCtx` that embeds `context.Context` and adds a method:
it implements `Context`, and the contexts the server passes do not implement it. -/
def myCtxParam : ParamType :=
  { name := "functions.myCtx", kind := Kind.interface,
    implementsContext := true, implementsError := false }

/-- A handler `func(c myCtx) error` returning nil; the user state counts its
calls. No context value of the sample is assignable to `myCtx`, so `Call`
refuses every argument list. -/
def customCtx : RawValue Sample Nat :=
  { type := { kind := Kind.func, ins := [myCtxParam], outs := [errorParam] },
    asHandler := Option.none,
    fn :=
      { refuses := fun _ =>
          some "reflect: Call using context.backgroundCtx as type functions.myCtx",
        run := fun _ st => ([Value.nil], st + 1) } }

/-- An encoder that breaks the contract of `Encoder.Encode`: it succeeds and
writes nothing. -/
def emptyEncode (_esc : Bool) (_pre _ind : String) (_v : Value Sample) :
    Except GoError Bytes :=
  .ok []

/-- A decoder that fails on every payload. -/
def failingDecode (_t : ParamType) (_payload : Bytes) : Except GoError (Value Sample) :=
  .error (errorsNew "decoder called")

/-- A request whose body was read in full. -/
def requestOf (body : Bytes) : Request := { body := body, readErr := Option.none }

/-- A request whose body cannot be read. -/
def brokenRequest : Request :=
  { body := [], readErr := some (errorsNew "unexpected EOF") }

/-- The world before any call, for a stateless user function. -/
def emptyWorld : World Sample Unit := { calls := [], state := () }


/-! ## Helper lemmas -/

theorem errorHandler_invoke {α σ : Type} (err : GoError) (ctx : Context) (payload : Bytes)
    (w : World α σ) :
    (errorHandler err).Invoke ctx payload w = (Outcome.ret Option.none (some err), w) := rfl

/-- An accepted call leaves what the function itself returns. -/
theorem result_accepted {α σ : Type} (fn : UserFunc α σ) (args : List (Value α)) (st : σ)
    (h : fn.refuses args = Option.none) : fn args st = fn.run args st := by
  show UserFunc.result fn args st = fn.run args st
  simp [UserFunc.result, h]

/-- A refused call returns no value and leaves the state as it was. -/
theorem result_refused {α σ : Type} (fn : UserFunc α σ) (args : List (Value α)) (st : σ)
    (msg : String) (h : fn.refuses args = some msg) : fn args st = ([], st) := by
  show UserFunc.result fn args st = ([], st)
  simp [UserFunc.result, h]

/-- A call that returned a value was accepted. -/
theorem accepted_of_values {α σ : Type} (fn : UserFunc α σ) (args : List (Value α)) (st : σ)
    (h : (fn args st).1 ≠ []) : fn.refuses args = Option.none := by
  cases hr : fn.refuses args with
  | none => rfl
  | some msg =>
    rw [result_refused fn args st msg hr] at h
    exact absurd rfl h

theorem callAndRespond_world {α σ : Type} (json : Json α) (fn : UserFunc α σ) (s : server α σ)
    (args : List (Value α)) (w : World α σ) :
    (callAndRespond json fn s args w).2 = (Call fn args w).2 := by
  unfold callAndRespond
  split <;> rfl

/-- The adapted call on accepted arguments: the user function runs once, the
call is logged, and the outcome is `respond` on the returned values. -/
theorem callAndRespond_accepted {α σ : Type} (json : Json α) (fn : UserFunc α σ)
    (s : server α σ) (args : List (Value α)) (w : World α σ)
    (h : fn.refuses args = Option.none) :
    callAndRespond json fn s args w
      = (respond json s (fn args w.state).1,
          { calls := w.calls ++ [args], state := (fn args w.state).2 }) := by
  rw [result_accepted fn args w.state h]
  unfold callAndRespond Call
  simp [h]

/-- The adapted call on refused arguments: the invocation panics with the text
of `Call`, the user function is not run and the world is as it was. -/
theorem callAndRespond_refused {α σ : Type} (json : Json α) (fn : UserFunc α σ)
    (s : server α σ) (args : List (Value α)) (w : World α σ) (msg : String)
    (h : fn.refuses args = some msg) :
    callAndRespond json fn s args w = (Outcome.panicked msg, w) := by
  unfold callAndRespond Call
  simp [h]

theorem validateArguments_ok_iff (t : HandlerType) :
    (validateArguments t).2 = Option.none ↔ argShape t ≠ Option.none := by
  obtain ⟨k, ins, outs⟩ := t
  match ins with
  | [] => simp [validateArguments, argShape, HandlerType.NumIn]
  | [a] =>
    cases hc : a.implementsContext <;>
      simp [validateArguments, argShape, HandlerType.NumIn, HandlerType.In,
        ParamType.Implements, hc]
  | [a, b] =>
    cases hc : a.implementsContext <;>
      simp [validateArguments, argShape, HandlerType.NumIn, HandlerType.In,
        ParamType.Implements, hc]
  | a :: b :: c :: rest => simp [validateArguments, argShape, HandlerType.NumIn]

theorem validateArguments_flag (t : HandlerType)
    (h : (validateArguments t).2 = Option.none) :
    (validateArguments t).1 = firstIsContext t := by
  obtain ⟨k, ins, outs⟩ := t
  match ins with
  | [] => simp [validateArguments, firstIsContext, HandlerType.NumIn]
  | [a] =>
    cases hc : a.implementsContext <;>
      simp [validateArguments, firstIsContext, HandlerType.NumIn, HandlerType.In,
        ParamType.Implements, hc]
  | [a, b] =>
    cases hc : a.implementsContext <;>
      simp_all [validateArguments, firstIsContext, HandlerType.NumIn, HandlerType.In,
        ParamType.Implements]
  | a :: b :: c :: rest => simp [validateArguments, HandlerType.NumIn] at h

theorem validateReturns_ok_iff (t : HandlerType) :
    validateReturns t = Option.none ↔ retShape t ≠ Option.none := by
  obtain ⟨k, ins, outs⟩ := t
  match outs with
  | [] => simp [validateReturns, retShape, HandlerType.NumOut]
  | [a] =>
    cases hc : a.implementsError <;>
      simp [validateReturns, retShape, HandlerType.NumOut, HandlerType.Out,
        ParamType.Implements, hc]
  | [a, b] =>
    cases hc : b.implementsError <;>
      simp [validateReturns, retShape, HandlerType.NumOut, HandlerType.Out,
        ParamType.Implements, hc]
  | a :: b :: c :: rest => simp [validateReturns, retShape, HandlerType.NumOut]

/-- The adapter's invocation in the table's terms: with an event argument the
payload is decoded into the type of the last parameter, and the user function
is called on the prescribed argument list. -/
theorem adapter_invoke {α σ : Type} (json : Json α) (t : HandlerType) (fn : UserFunc α σ)
    (s : server α σ) (h : (validateArguments t).2 = Option.none)
    (ctx : Context) (payload : Bytes) (w : World α σ) :
    (adapter json t fn (validateArguments t).1 s).Invoke ctx payload w =
      if declaresEvent t then
        match json.decode (eventType t) payload with
        | .error err => (Outcome.ret Option.none (some err), w)
        | .ok event => callAndRespond json fn s (expectedArgs t ctx event) w
      else callAndRespond json fn s (expectedArgs t ctx Value.nil) w := by
  obtain ⟨k, ins, outs⟩ := t
  match ins with
  | [] =>
    simp [validateArguments, adapter, bytesHandlerFunc.Invoke, declaresEvent, argShape,
      expectedArgs, firstIsContext, HandlerType.NumIn]
  | [a] =>
    cases hc : a.implementsContext <;>
      simp [validateArguments, adapter, bytesHandlerFunc.Invoke, declaresEvent, argShape,
        expectedArgs, firstIsContext, eventType, HandlerType.NumIn, HandlerType.In,
        ParamType.Implements, hc]
  | [a, b] =>
    cases hc : a.implementsContext
    · simp [validateArguments, HandlerType.NumIn, HandlerType.In, ParamType.Implements, hc] at h
    · simp [validateArguments, adapter, bytesHandlerFunc.Invoke, declaresEvent, argShape,
        expectedArgs, firstIsContext, eventType, HandlerType.NumIn, HandlerType.In,
        ParamType.Implements, hc]
  | a :: b :: c :: rest => simp [validateArguments, HandlerType.NumIn] at h

/-- A valid raw handler is normalised to the adapter closure. -/
theorem reflectHandler_valid {α σ : Type} (json : Json α) (v : RawValue α σ) (s : server α σ)
    (hv : Valid v) :
    reflectHandler json (some v) s = adapter json v.type v.fn (validateArguments v.type).1 s := by
  obtain ⟨hh, hk, ha, hr⟩ := hv
  unfold reflectHandler
  simp only [hh, hk]
  have : validateArguments v.type = ((validateArguments v.type).1, Option.none) := by
    rw [← ha]
  rw [this]
  simp [hr]

theorem inTable_shapes (t : HandlerType) (h : inTable t = true) :
    argShape t ≠ Option.none ∧ retShape t ≠ Option.none := by
  unfold inTable at h
  cases ha : argShape t <;> cases hr : retShape t <;> simp_all

theorem valid_of_shapes {α σ : Type} (v : RawValue α σ) (hh : v.asHandler = Option.none)
    (hk : v.type.Kind = Kind.func) (ha : argShape v.type ≠ Option.none)
    (hr : retShape v.type ≠ Option.none) : Valid v :=
  ⟨hh, hk, (validateArguments_ok_iff v.type).2 ha, (validateReturns_ok_iff v.type).2 hr⟩

/-- A function value that is no `Handler` and fails a validation is normalised
to an `errorHandler`. -/
theorem reflectHandler_rejected {α σ : Type} (json : Json α) (v : RawValue α σ)
    (s : server α σ) (hh : v.asHandler = Option.none) (hk : v.type.Kind = Kind.func)
    (hrej : (validateArguments v.type).2 ≠ Option.none ∨ validateReturns v.type ≠ Option.none) :
    ∃ err, reflectHandler json (some v) s = errorHandler err := by
  unfold reflectHandler
  simp only [hh, hk]
  rcases hva : validateArguments v.type with ⟨flag, _ | err⟩
  · rcases hvr : validateReturns v.type with _ | err
    · rcases hrej with h | h
      · simp [hva] at h
      · exact absurd hvr h
    · exact ⟨err, by simp⟩
  · exact ⟨err, by simp⟩

/-- After one adapted call the log holds one more entry, the arguments of that
call, and the user state is the one the user function left. -/
theorem callAndRespond_calls {α σ : Type} (json : Json α) (fn : UserFunc α σ) (s : server α σ)
    (args : List (Value α)) (w : World α σ) (h : fn.refuses args = Option.none) :
    (callAndRespond json fn s args w).2.calls = w.calls ++ [args] ∧
      (callAndRespond json fn s args w).2.state = (fn args w.state).2 := by
  rw [callAndRespond_accepted json fn s args w h]
  exact ⟨rfl, rfl⟩

/-- The adapter's invocation on a payload that decodes, or without an event. -/
theorem adapter_invoke_decoded {α σ : Type} (json : Json α) (t : HandlerType)
    (fn : UserFunc α σ) (s : server α σ) (h : (validateArguments t).2 = Option.none)
    (ctx : Context) (payload : Bytes) (w : World α σ) (event : Value α)
    (hd : declaresEvent t = true → json.decode (eventType t) payload = .ok event) :
    (adapter json t fn (validateArguments t).1 s).Invoke ctx payload w =
      callAndRespond json fn s (expectedArgs t ctx event) w := by
  rw [adapter_invoke json t fn s h]
  cases he : declaresEvent t
  · simp [expectedArgs, he]
  · simp [hd he]

theorem invokeAll_errorHandler {α σ : Type} (err : GoError) (reqs : List (Context × Bytes))
    (w : World α σ) :
    invokeAll (errorHandler err) reqs w
      = (reqs.map (fun _ => Outcome.ret Option.none (some err)), w) := by
  induction reqs with
  | nil => rfl
  | cons r rest ih =>
    obtain ⟨ctx, payload⟩ := r
    simp [invokeAll, errorHandler_invoke, ih]

/-- A value that is no `Handler` and not of function kind is normalised to an `errorHandler`. -/
theorem reflectHandler_not_func {α σ : Type} (json : Json α) (v : RawValue α σ)
    (s : server α σ) (hh : v.asHandler = Option.none) (hk : v.type.Kind ≠ Kind.func) :
    reflectHandler json (some v) s = errorHandler (Errorf
      ("handler kind " ++ v.type.Kind.toString ++ " is not " ++ Kind.func.toString)) := by
  unfold reflectHandler
  simp [hh, hk]

/-- A function value that is no `Handler` and has more than two parameters is
normalised to the `errorHandler` of the argument-count message. -/
theorem reflectHandler_too_many_args {α σ : Type} (json : Json α) (v : RawValue α σ)
    (s : server α σ) (hh : v.asHandler = Option.none) (hk : v.type.Kind = Kind.func)
    (hn : 2 < v.type.NumIn) :
    reflectHandler json (some v) s = errorHandler (Errorf
      ("handlers may not take more than two arguments, but handler takes "
        ++ toString v.type.NumIn)) := by
  unfold reflectHandler
  simp [hh, hk, validateArguments, hn]

theorem getD_last_of_getLast? {β : Type} (l : List β) (d x : β)
    (h : l.getLast? = some x) : l.length > 0 ∧ l.getD (l.length - 1) d = x := by
  obtain ⟨ys, rfl⟩ := List.getLast?_eq_some_iff.1 h
  constructor
  · simp
  · simp [List.getD_eq_getElem?_getD]

/-- When the last returned value is a non-nil error, the adapted call returns
it and nothing is encoded. -/
theorem callAndRespond_error {α σ : Type} (json : Json α) (fn : UserFunc α σ) (s : server α σ)
    (args : List (Value α)) (w : World α σ) (e : GoError)
    (h : (fn args w.state).1.getLast? = some (Value.error e)) :
    callAndRespond json fn s args w
      = (Outcome.ret Option.none (some e),
          { calls := w.calls ++ [args], state := (fn args w.state).2 }) := by
  have hacc : fn.refuses args = Option.none :=
    accepted_of_values fn args w.state (fun h0 => by rw [h0] at h; simp at h)
  have hl := getD_last_of_getLast? _ Value.nil _ h
  rw [callAndRespond_accepted json fn s args w hacc]
  unfold respond
  simp only [hl.1, hl.2, if_true, Value.asError]

/-- When the adapted call succeeds with bytes, the encoder succeeded on the
response value; without indentation its output was not empty and the bytes are
that output less its last byte, with indentation the bytes are that output. -/
theorem respond_ok {α σ : Type} (json : Json α) (s : server α σ)
    (response : List (Value α)) (bytes : Bytes)
    (h : respond json s response = Outcome.ret (some bytes) Option.none) :
    ∃ out, json.encode s.jsonResponseEscapeHTML s.jsonResponseIndentPrefix
        s.jsonResponseIndentValue (responseValue response) = .ok out ∧
      ((s.jsonResponseIndentPrefix = "" ∧ s.jsonResponseIndentValue = "") →
        out ≠ [] ∧ bytes = out.take (out.length - 1)) ∧
      (¬ (s.jsonResponseIndentPrefix = "" ∧ s.jsonResponseIndentValue = "") → bytes = out) := by
  unfold respond at h
  simp only [] at h
  split at h
  · simp at h
  · split at h
    · simp at h
    · rename_i out hout
      refine ⟨out, hout, ?_, ?_⟩
      · rintro ⟨hp, hi⟩
        simp only [hp, hi, beq_self_eq_true, Bool.and_self, if_true] at h
        split at h
        · simp at h
        · rename_i hne
          simp only [Outcome.ret.injEq, Option.some.injEq, and_true] at h
          exact ⟨fun h0 => hne (by simp [h0]), h.symm⟩
      · intro hn
        have hb : (s.jsonResponseIndentValue == "" && s.jsonResponseIndentPrefix == "") = false := by
          cases hb : (s.jsonResponseIndentValue == "" && s.jsonResponseIndentPrefix == "")
          · rfl
          · simp only [Bool.and_eq_true, beq_iff_eq] at hb
            exact absurd ⟨hb.2, hb.1⟩ hn
        simp only [hb] at h
        simp at h
        exact h.symm

/-- A successful adapted call was accepted, and `respond` succeeded on the
values it returned. -/
theorem callAndRespond_ok {α σ : Type} (json : Json α) (fn : UserFunc α σ) (s : server α σ)
    (args : List (Value α)) (w : World α σ) (bytes : Bytes)
    (h : (callAndRespond json fn s args w).1 = Outcome.ret (some bytes) Option.none) :
    fn.refuses args = Option.none ∧
    ∃ out, json.encode s.jsonResponseEscapeHTML s.jsonResponseIndentPrefix
        s.jsonResponseIndentValue (responseValue (fn args w.state).1) = .ok out ∧
      ((s.jsonResponseIndentPrefix = "" ∧ s.jsonResponseIndentValue = "") →
        out ≠ [] ∧ bytes = out.take (out.length - 1)) ∧
      (¬ (s.jsonResponseIndentPrefix = "" ∧ s.jsonResponseIndentValue = "") → bytes = out) := by
  cases hr : fn.refuses args with
  | some msg =>
    rw [callAndRespond_refused json fn s args w msg hr] at h
    simp at h
  | none =>
    rw [callAndRespond_accepted json fn s args w hr] at h
    exact ⟨rfl, respond_ok json s _ bytes h⟩

/-- An invocation of a valid raw handler either fails in decoding, leaving the
world as it was, or is the adapted call on the prescribed arguments. -/
theorem valid_invoke_cases {α σ : Type} (json : Json α) (v : RawValue α σ) (s : server α σ)
    (hv : Valid v) (ctx : Context) (payload : Bytes) (w : World α σ) :
    (declaresEvent v.type = true ∧ ∃ err, json.decode (eventType v.type) payload = .error err ∧
        (reflectHandler json (some v) s).Invoke ctx payload w
          = (Outcome.ret Option.none (some err), w)) ∨
    (∃ event, (declaresEvent v.type = true →
          json.decode (eventType v.type) payload = .ok event) ∧
        (reflectHandler json (some v) s).Invoke ctx payload w
          = callAndRespond json v.fn s (expectedArgs v.type ctx event) w) := by
  rw [reflectHandler_valid json v s hv, adapter_invoke json v.type v.fn s hv.2.2.1]
  cases he : declaresEvent v.type
  · right
    exact ⟨Value.nil, by simp, by simp⟩
  · cases hd : json.decode (eventType v.type) payload with
    | error err => left; exact ⟨rfl, err, rfl, by simp⟩
    | ok event => right; exact ⟨event, fun _ => rfl, by simp⟩

theorem sampleJson_endsWithNewline : sampleJson.EndsWithNewline := by
  intro esc pre ind v out h
  simp only [sampleJson, sampleEncode] at h
  split at h
  · cases h
    simp
  · cases h

theorem sampleJson_compact : sampleJson.CompactWithoutIndent := by
  intro esc v out h
  simp only [sampleJson, sampleEncode] at h
  split at h
  · rename_i body hb
    cases h
    simp only [List.dropLast_concat]
    unfold sampleMarshal at hb
    split at hb
    · cases hb; decide
    · simp only [and_self, if_true] at hb
      cases hb
      rename_i f val
      have e : ascii "\x7b\"" ++ f ++ ascii "\":\"" ++ val ++ ascii "\"\x7d"
          = (ascii "\x7b\"" ++ f ++ ascii "\":\"" ++ val ++ [34]) ++ [125] := by
        simp [ascii]
      rw [e, List.getLast?_concat]
      decide
    · cases hb; decide
    · cases hb
  · cases h

theorem greeter_valid : Valid greeter := ⟨rfl, rfl, rfl, rfl⟩

theorem greeter_returnsDeclared : ReturnsDeclared greeter := by
  intro args st hacc
  rw [result_accepted greeter.fn args st hacc]
  unfold greeter
  simp only []
  split <;> rfl

theorem boom_valid : Valid boom := ⟨rfl, rfl, rfl, rfl⟩

/-- A successful invocation of a valid raw handler is a successful adapted call. -/
theorem valid_invoke_ok {α σ : Type} (json : Json α) (v : RawValue α σ) (s : server α σ)
    (hv : Valid v) (ctx : Context) (payload : Bytes) (w w' : World α σ) (bytes : Bytes)
    (hok : (reflectHandler json (some v) s).Invoke ctx payload w
      = (Outcome.ret (some bytes) Option.none, w')) :
    ∃ args, v.fn.refuses args = Option.none ∧ w'.calls = w.calls ++ [args] ∧
      ∃ out, json.encode s.jsonResponseEscapeHTML s.jsonResponseIndentPrefix
          s.jsonResponseIndentValue (responseValue (v.fn args w.state).1) = .ok out ∧
        ((s.jsonResponseIndentPrefix = "" ∧ s.jsonResponseIndentValue = "") →
          out ≠ [] ∧ bytes = out.take (out.length - 1)) ∧
        (¬ (s.jsonResponseIndentPrefix = "" ∧ s.jsonResponseIndentValue = "") →
          bytes = out) := by
  rcases valid_invoke_cases json v s hv ctx payload w with ⟨_, err, _, h⟩ | ⟨event, _, h⟩
  · rw [h] at hok
    simp at hok
  · rw [h] at hok
    have h1 := congrArg Prod.fst hok
    have h2 := congrArg Prod.snd hok
    simp only [] at h1 h2
    obtain ⟨hacc, hrest⟩ := callAndRespond_ok json v.fn s _ w bytes h1
    refine ⟨expectedArgs v.type ctx event, hacc, ?_, hrest⟩
    rw [← h2]
    exact (callAndRespond_calls json v.fn s _ w hacc).1

theorem take_pred_of_getLast? (out : Bytes) (b : Nat) (h : out.getLast? = some b) :
    out = out.take (out.length - 1) ++ [b] ∧ out.take (out.length - 1) = out.dropLast := by
  obtain ⟨ys, rfl⟩ := List.getLast?_eq_some_iff.1 h
  simp

/-! ## Signature validation -/

/-- C9: `validateReturns` returns no error exactly for no return value, one
return value whose type implements `error`, or two return values whose second
type implements `error`; a single non-error return, a non-error second return
and more than two returns are rejected, each with a message of its own. -/
theorem validateReturns_accepts_iff (t : HandlerType) :
    (validateReturns t = Option.none ↔
      (t.NumOut = 0 ∨
        (t.NumOut = 1 ∧ (t.Out 0).Implements IfaceType.errorType = true) ∨
        (t.NumOut = 2 ∧ (t.Out 1).Implements IfaceType.errorType = true))) ∧
    (t.NumOut = 1 → (t.Out 0).Implements IfaceType.errorType = false →
      validateReturns t =
        some (Errorf "handler returns a single value, but it does not implement error")) ∧
    (t.NumOut = 2 → (t.Out 1).Implements IfaceType.errorType = false →
      validateReturns t =
        some (Errorf "handler returns two values, but the second does not implement error")) ∧
    (2 < t.NumOut →
      validateReturns t = some (Errorf "handler may not return more than two values")) ∧
    (Errorf "handler returns a single value, but it does not implement error" ≠
        Errorf "handler returns two values, but the second does not implement error" ∧
      Errorf "handler returns a single value, but it does not implement error" ≠
        Errorf "handler may not return more than two values" ∧
      Errorf "handler returns two values, but the second does not implement error" ≠
        Errorf "handler may not return more than two values") := by
  refine ⟨?_, ?_, ?_, ?_, by decide, by decide, by decide⟩
  · unfold validateReturns
    by_cases h2 : t.NumOut > 2
    · simp only [h2, if_true]
      constructor
      · intro h; cases h
      · intro h; omega
    · by_cases h1 : t.NumOut > 1
      · have e2 : t.NumOut = 2 := by omega
        simp only [h2, h1, if_true, if_false]
        cases hb : (t.Out 1).Implements IfaceType.errorType <;> simp [e2]
      · by_cases h0 : t.NumOut = 1
        · simp only [h2, h1, h0, if_true, if_false]
          cases hb : (t.Out 0).Implements IfaceType.errorType <;> simp
        · have e0 : t.NumOut = 0 := by omega
          simp [e0]
  · intro h1 hb
    unfold validateReturns
    simp [h1, hb]
  · intro h2 hb
    unfold validateReturns
    simp [h2, hb]
  · intro h
    unfold validateReturns
    simp [h]

/-- Witness for C9: `func() int` is rejected with the single-value message,
`func() (int, error)` is accepted. -/
theorem validateReturns_accepts_iff_witness :
    validateReturns { kind := Kind.func, ins := [], outs := [intParam] }
        = some (Errorf "handler returns a single value, but it does not implement error") ∧
      validateReturns { kind := Kind.func, ins := [], outs := [intParam, errorParam] }
        = Option.none :=
  ⟨(validateReturns_accepts_iff { kind := Kind.func, ins := [], outs := [intParam] }).2.1
      rfl rfl,
    (validateReturns_accepts_iff
      { kind := Kind.func, ins := [], outs := [intParam, errorParam] }).1.2
      (Or.inr (Or.inr ⟨rfl, rfl⟩))⟩

/-- C10: `validateArguments` returns an error exactly for more than two
parameters, or two parameters whose first type does not implement `Context`;
when it succeeds, the flag is true exactly when there is a first parameter and
its type implements `Context`. With a single `Context` parameter the adapter
calls the user function on the context alone and does not decode the payload;
with a single other parameter it decodes the payload into that parameter's type
and calls the user function on the event alone. -/
theorem validateArguments_spec (t : HandlerType) :
    ((validateArguments t).2 ≠ Option.none ↔
      (2 < t.NumIn ∨ (t.NumIn = 2 ∧ (t.In 0).Implements IfaceType.contextType = false))) ∧
    ((validateArguments t).2 = Option.none →
      ((validateArguments t).1 = true ↔
        (1 ≤ t.NumIn ∧ (t.In 0).Implements IfaceType.contextType = true))) ∧
    (∀ (α σ : Type) (json : Json α) (fn : UserFunc α σ) (s : server α σ) (ctx : Context)
        (payload : Bytes) (w : World α σ),
      t.NumIn = 1 → (t.In 0).Implements IfaceType.contextType = true →
        validateArguments t = (true, Option.none) ∧
        (adapter json t fn (validateArguments t).1 s).Invoke ctx payload w =
          callAndRespond json fn s [Value.context ctx] w) ∧
    (∀ (α σ : Type) (json : Json α) (fn : UserFunc α σ) (s : server α σ) (ctx : Context)
        (payload : Bytes) (w : World α σ),
      t.NumIn = 1 → (t.In 0).Implements IfaceType.contextType = false →
        validateArguments t = (false, Option.none) ∧
        (adapter json t fn (validateArguments t).1 s).Invoke ctx payload w =
          match json.decode (t.In 0) payload with
          | .error err => (Outcome.ret Option.none (some err), w)
          | .ok event => callAndRespond json fn s [event] w) := by
  obtain ⟨k, ins, outs⟩ := t
  match ins with
  | [] =>
    simp [validateArguments, HandlerType.NumIn]
  | [a] =>
    cases hc : a.implementsContext <;>
      simp [validateArguments, adapter, bytesHandlerFunc.Invoke, HandlerType.NumIn,
        HandlerType.In, ParamType.Implements, hc]
  | [a, b] =>
    cases hc : a.implementsContext <;>
      simp [validateArguments, HandlerType.NumIn, HandlerType.In, ParamType.Implements, hc]
  | a :: b :: c :: rest =>
    simp [validateArguments, HandlerType.NumIn]

/-- Witness for C10 on the one-parameter signatures `func(context.Context)` and `func(int)`. -/
theorem validateArguments_spec_witness :
    validateArguments { kind := Kind.func, ins := [contextParam], outs := [] }
        = (true, Option.none) ∧
      validateArguments { kind := Kind.func, ins := [intParam], outs := [] }
        = (false, Option.none) ∧
      (validateArguments { kind := Kind.func, ins := [intParam, intParam], outs := [] }).2
        ≠ Option.none :=
  ⟨((validateArguments_spec { kind := Kind.func, ins := [contextParam], outs := [] }).2.2.1
      Sample Unit sampleJson (accepting (fun _ st => ([], st))) (defaultServer _ _) { id := 1 } []
      emptyWorld rfl rfl).1,
   ((validateArguments_spec { kind := Kind.func, ins := [intParam], outs := [] }).2.2.2
      Sample Unit sampleJson (accepting (fun _ st => ([], st))) (defaultServer _ _) { id := 1 } []
      emptyWorld rfl rfl).1,
   (validateArguments_spec { kind := Kind.func, ins := [intParam, intParam], outs := [] }).1.2
      (Or.inr ⟨rfl, rfl⟩)⟩

/-! ## Normalisation -/

/-- C1 (amended): for every function value that does not itself implement
`Handler` and whose signature is one of the ten rows of the table, both
validations succeed and `reflectHandler` returns the adapter; for every context
and every payload that decodes into the event type, if `handler.Call` accepts
the argument list, an invocation calls the user function exactly once, on the
context (present iff the first parameter implements `Context`) followed by the
decoded event (present iff the signature declares one), which no
`errorHandler` does. -/
theorem supported_signature_adapted {α σ : Type} (json : Json α) (v : RawValue α σ)
    (s : server α σ) (hh : v.asHandler = Option.none) (hk : v.type.Kind = Kind.func)
    (ht : inTable v.type = true) :
    validateArguments v.type = (firstIsContext v.type, Option.none) ∧
    validateReturns v.type = Option.none ∧
    reflectHandler json (some v) s = adapter json v.type v.fn (firstIsContext v.type) s ∧
    ∀ (ctx : Context) (payload : Bytes) (w : World α σ) (event : Value α),
      (declaresEvent v.type = true → json.decode (eventType v.type) payload = .ok event) →
      v.fn.refuses (expectedArgs v.type ctx event) = Option.none →
        ((reflectHandler json (some v) s).Invoke ctx payload w).2.calls
            = w.calls ++ [expectedArgs v.type ctx event] ∧
          ((reflectHandler json (some v) s).Invoke ctx payload w).2.state
            = (v.fn.run (expectedArgs v.type ctx event) w.state).2 ∧
          (reflectHandler json (some v) s).Invoke ctx payload w
            = (respond json s (v.fn.run (expectedArgs v.type ctx event) w.state).1,
                { calls := w.calls ++ [expectedArgs v.type ctx event],
                  state := (v.fn.run (expectedArgs v.type ctx event) w.state).2 }) ∧
          ∀ err, (reflectHandler json (some v) s).Invoke ctx payload w
            ≠ (errorHandler err).Invoke ctx payload w := by
  have hs := inTable_shapes v.type ht
  have hv : Valid v := valid_of_shapes v hh hk hs.1 hs.2
  have hflag := validateArguments_flag v.type hv.2.2.1
  have hr := reflectHandler_valid json v s hv
  refine ⟨?_, hv.2.2.2, ?_, ?_⟩
  · rw [← hflag, ← hv.2.2.1]
  · rw [hr, hflag]
  · intro ctx payload w event hd hacc
    have hi := adapter_invoke_decoded json v.type v.fn s hv.2.2.1 ctx payload w event hd
    have hc := callAndRespond_accepted json v.fn s (expectedArgs v.type ctx event) w hacc
    rw [result_accepted v.fn _ w.state hacc] at hc
    rw [hr, hi, hc]
    refine ⟨rfl, rfl, rfl, ?_⟩
    intro err he
    have h2 := congrArg (fun r => r.2.calls.length) he
    simp [errorHandler_invoke] at h2

/-- Witness for C1 (amended): Scenario A's handler, a row of the table, called
on the payload `{"Name":"Bob"}`. -/
theorem supported_signature_adapted_witness :
    greeter.asHandler = Option.none ∧ greeter.type.Kind = Kind.func ∧
      inTable greeter.type = true ∧
      ((reflectHandler sampleJson (some greeter) (defaultServer Sample Unit)).Invoke
          { id := 7 } (ascii "\x7b\"Name\":\"Bob\"\x7d") emptyWorld).2.calls
        = [[Value.context { id := 7 },
            Value.data (Sample.record (ascii "Name") (ascii "Bob"))]] :=
  ⟨rfl, rfl, rfl,
    ((supported_signature_adapted sampleJson greeter (defaultServer Sample Unit) rfl rfl rfl).2.2.2
      { id := 7 } (ascii "\x7b\"Name\":\"Bob\"\x7d") emptyWorld
      (Value.data (Sample.record (ascii "Name") (ascii "Bob"))) (fun _ => rfl) rfl).1⟩

/-- Counterexample to C1 as stated, on two inputs. The source's own function
type `bytesHandlerFunc` has the signature of the table's last row, yet
`reflectHandler` returns such a value itself and not the adapter: on the payload
`[]`, which decodes into the empty byte slice, the function receives the two
raw payload bytes, and no call on `[ctx, decoded event]` is made. And the
variadic `func(xs ...byte) {}`, which is no `Handler` and has the signature
`(event) -> ()` of the table, is adapted, but on the payload `[]` the invocation
panics in `handler.Call` and the function is not called. -/
theorem supported_signature_counterexample :
    (rawEcho.type.Kind = Kind.func ∧ inTable rawEcho.type = true ∧
      sampleJson.decode (eventType rawEcho.type) (ascii "[]")
        = .ok (Value.data (Sample.bytes [])) ∧
      reflectHandler sampleJson (some rawEcho) (defaultServer Sample (List Bytes))
        ≠ adapter sampleJson rawEcho.type rawEcho.fn (validateArguments rawEcho.type).1
            (defaultServer Sample (List Bytes)) ∧
      ((reflectHandler sampleJson (some rawEcho) (defaultServer Sample (List Bytes))).Invoke
          { id := 7 } (ascii "[]") { calls := [], state := [] }).2.calls
        ≠ [] ++ [expectedArgs rawEcho.type { id := 7 } (Value.data (Sample.bytes []))] ∧
      ((reflectHandler sampleJson (some rawEcho) (defaultServer Sample (List Bytes))).Invoke
          { id := 7 } (ascii "[]") { calls := [], state := [] }).2.state
        = [ascii "[]"] ∧
      (rawEcho.fn (expectedArgs rawEcho.type { id := 7 } (Value.data (Sample.bytes []))) []).2
        = [[]]) ∧
    (variadicBytes.asHandler = Option.none ∧ variadicBytes.type.Kind = Kind.func ∧
      inTable variadicBytes.type = true ∧
      sampleJson.decode (eventType variadicBytes.type) (ascii "[]")
        = .ok (Value.data (Sample.bytes [])) ∧
      (reflectHandler sampleJson (some variadicBytes) (defaultServer Sample Nat)).Invoke
          { id := 7 } (ascii "[]") { calls := [], state := 0 }
        = (Outcome.panicked "reflect: cannot use []uint8 as type uint8 in Call",
            { calls := [], state := 0 })) := by
  refine ⟨⟨rfl, rfl, rfl, ?_, by decide, rfl, rfl⟩, ⟨rfl, rfl, rfl, rfl, rfl⟩⟩
  intro h
  have h2 := congrArg
    (fun f => (f.Invoke { id := 7 } (ascii "[]") { calls := [], state := [] }).2.calls.length) h
  revert h2
  decide

/-- C3 (amended): for the nil raw handler, and for every raw handler that does
not itself implement `Handler` and is not of function kind, or is a function
with three or more parameters or with three or more return values,
`reflectHandler` returns a handler each of whose invocations, the first and all
later ones, returns no bytes and one and the same non-nil error and leaves the
world as it was, so that the user function is never called; for nil the
message is `handler is nil`. -/
theorem misconfigured_always_fails {α σ : Type} (json : Json α)
    (raw : Option (RawValue α σ)) (s : server α σ) (h : Misconfigured raw) :
    ∃ err, reflectHandler json raw s = errorHandler err ∧
      (∀ (ctx : Context) (payload : Bytes) (w : World α σ),
        (reflectHandler json raw s).Invoke ctx payload w
          = (Outcome.ret Option.none (some err), w)) ∧
      (∀ (reqs : List (Context × Bytes)) (w : World α σ),
        invokeAll (reflectHandler json raw s) reqs w
          = (reqs.map (fun _ => Outcome.ret Option.none (some err)), w)) ∧
      (raw = Option.none → err.Error = "handler is nil") := by
  have key : ∃ err, reflectHandler json raw s = errorHandler err ∧
      (raw = Option.none → err.Error = "handler is nil") := by
    cases raw with
    | none => exact ⟨errorsNew "handler is nil", rfl, fun _ => rfl⟩
    | some v =>
      obtain ⟨hh, hc⟩ := h
      by_cases hk : v.type.Kind = Kind.func
      · have hrej : (validateArguments v.type).2 ≠ Option.none ∨
            validateReturns v.type ≠ Option.none := by
          rcases hc with hc | hc | hc
          · exact absurd hk hc
          · left
            unfold validateArguments
            simp [show v.type.NumIn > 2 from hc]
          · right
            unfold validateReturns
            simp [show v.type.NumOut > 2 from hc]
        obtain ⟨err, he⟩ := reflectHandler_rejected json v s hh hk hrej
        exact ⟨err, he, fun hn => by cases hn⟩
      · exact ⟨_, reflectHandler_not_func json v s hh hk, fun hn => by cases hn⟩
  obtain ⟨err, he, hnil⟩ := key
  refine ⟨err, he, ?_, ?_, hnil⟩
  · intro ctx payload w
    rw [he]
    rfl
  · intro reqs w
    rw [he]
    exact invokeAll_errorHandler err reqs w

/-- Witness for C3 (amended): the nil handler, the integer `5`, Scenario B's
`func(a, b, c int)` and a function with three return values. -/
theorem misconfigured_always_fails_witness :
    (∃ err, reflectHandler sampleJson (Option.none : Option (RawValue Sample Nat))
        (defaultServer Sample Nat) = errorHandler err ∧ err.Error = "handler is nil") ∧
    (∃ err, reflectHandler sampleJson (some notAFunction) (defaultServer Sample Nat)
        = errorHandler err) ∧
    (∃ err, reflectHandler sampleJson (some triple) (defaultServer Sample Nat)
        = errorHandler err) ∧
    (∃ err, reflectHandler sampleJson (some tripleBadReturns) (defaultServer Sample Nat)
        = errorHandler err) :=
  ⟨(misconfigured_always_fails sampleJson Option.none (defaultServer Sample Nat)
      True.intro).imp (fun _ h => ⟨h.1, h.2.2.2 rfl⟩),
    (misconfigured_always_fails sampleJson (some notAFunction) (defaultServer Sample Nat)
      ⟨rfl, Or.inl (by decide)⟩).imp (fun _ h => h.1),
    (misconfigured_always_fails sampleJson (some triple) (defaultServer Sample Nat)
      ⟨rfl, Or.inr (Or.inl (by decide))⟩).imp (fun _ h => h.1),
    (misconfigured_always_fails sampleJson (some tripleBadReturns) (defaultServer Sample Nat)
      ⟨rfl, Or.inr (Or.inr (by decide))⟩).imp (fun _ h => h.1)⟩

/-- Counterexample to C3 as stated: a function with three parameters whose type
has a method `Invoke` is a `Handler`; `reflectHandler` returns it unchanged and
its invocation returns the bytes `ok` with a nil error, having called the
function. -/
theorem misconfigured_counterexample :
    tripleHandler.type.Kind = Kind.func ∧ 3 ≤ tripleHandler.type.NumIn ∧
      ((reflectHandler sampleJson (some tripleHandler) (defaultServer Sample Nat)).Invoke
          { id := 7 } [] { calls := [], state := 0 }).1
        = Outcome.ret (some (ascii "ok")) Option.none ∧
      ((reflectHandler sampleJson (some tripleHandler) (defaultServer Sample Nat)).Invoke
          { id := 7 } [] { calls := [], state := 0 }).2.state = 1 := by
  decide

/-- C4 (amended): for every function value that does not itself implement
`Handler` and has `n > 2` parameters, whatever its return values are, every
invocation of the normalised handler returns no bytes and the error
`handlers may not take more than two arguments, but handler takes n`, leaving
the world as it was: the argument check comes first and its error is reported. -/
theorem too_many_arguments_reported {α σ : Type} (json : Json α) (v : RawValue α σ)
    (s : server α σ) (hh : v.asHandler = Option.none) (hk : v.type.Kind = Kind.func)
    (hn : 2 < v.type.NumIn) :
    ∀ (ctx : Context) (payload : Bytes) (w : World α σ),
      (reflectHandler json (some v) s).Invoke ctx payload w
        = (Outcome.ret Option.none (some (Errorf
            ("handlers may not take more than two arguments, but handler takes "
              ++ toString v.type.NumIn))), w) := by
  intro ctx payload w
  rw [reflectHandler_too_many_args json v s hh hk hn]
  rfl

/-- Witness for C4 (amended): a function with three parameters and three return
values fails with the message about its arguments. -/
theorem too_many_arguments_reported_witness :
    ((reflectHandler sampleJson (some tripleBadReturns) (defaultServer Sample Nat)).Invoke
        { id := 7 } (ascii "1") { calls := [], state := 0 }).1
      = Outcome.ret Option.none
          (some (Errorf "handlers may not take more than two arguments, but handler takes 3")) :=
  congrArg Prod.fst
    (too_many_arguments_reported sampleJson tripleBadReturns (defaultServer Sample Nat)
      rfl rfl (by decide) { id := 7 } (ascii "1") { calls := [], state := 0 })

/-- Counterexample to C4 as stated: a function value with three parameters whose
type has a method `Invoke` is returned unchanged by `reflectHandler`, and its
invocation succeeds instead of failing with the argument-count message. -/
theorem too_many_arguments_counterexample :
    tripleHandler.type.Kind = Kind.func ∧ 2 < tripleHandler.type.NumIn ∧
      ((reflectHandler sampleJson (some tripleHandler) (defaultServer Sample Nat)).Invoke
          { id := 7 } [] { calls := [], state := 0 }).1
        ≠ Outcome.ret Option.none
            (some (Errorf
              "handlers may not take more than two arguments, but handler takes 3")) := by
  decide

/-! ## The adapter's response -/

/-- C5: with the default configuration (indent prefix and indent value empty),
for every valid handler with a payload return and every invocation that
succeeds, the returned bytes are the encoder's output for the returned payload
less its final newline byte, and they do not end in a newline. The encoder is
taken to end each value with a newline and to write compact text when no
indentation is set, as `encoding/json` does. -/
theorem default_config_strips_newline {α σ : Type} (json : Json α) (v : RawValue α σ)
    (s : server α σ) (hv : Valid v) (hout : v.type.NumOut = 2) (hty : ReturnsDeclared v)
    (hnl : json.EndsWithNewline) (hcompact : json.CompactWithoutIndent)
    (hp : s.jsonResponseIndentPrefix = "") (hi : s.jsonResponseIndentValue = "")
    (ctx : Context) (payload : Bytes) (w w' : World α σ) (bytes : Bytes)
    (hok : (reflectHandler json (some v) s).Invoke ctx payload w
      = (Outcome.ret (some bytes) Option.none, w')) :
    ∃ args result last out,
      w'.calls = w.calls ++ [args] ∧
      (v.fn args w.state).1 = [result, last] ∧
      json.encode s.jsonResponseEscapeHTML "" "" result = .ok out ∧
      out = bytes ++ [newline] ∧
      bytes.getLast? ≠ some newline := by
  obtain ⟨args, hacc, hcalls, out, henc, hstrip, _⟩ :=
    valid_invoke_ok json v s hv ctx payload w w' bytes hok
  have hlen := hty args w.state hacc
  rw [hout] at hlen
  obtain ⟨result, last, hresp⟩ : ∃ a b, (v.fn args w.state).1 = [a, b] := by
    match hm : (v.fn args w.state).1, hlen with
    | [a, b], _ => exact ⟨a, b, rfl⟩
  rw [hresp, hp, hi] at henc
  have hval : responseValue [result, last] = result := by simp [responseValue]
  rw [hval] at henc
  obtain ⟨_, hb⟩ := hstrip ⟨hp, hi⟩
  have hlast := hnl _ _ _ _ _ henc
  have hsplit := take_pred_of_getLast? out newline hlast
  refine ⟨args, result, last, out, hcalls, hresp, henc, ?_, ?_⟩
  · rw [hb]
    exact hsplit.1
  · rw [hb, hsplit.2]
    exact hcompact _ _ _ henc

/-- Witness for C5: Scenario A. The handler
`func(ctx, event struct{Name string}) (struct{Msg string}, error)` called on
`{"Name":"Bob"}` returns exactly `{"Msg":"hi Bob"}`. -/
theorem default_config_strips_newline_witness :
    (reflectHandler sampleJson (some greeter) (defaultServer Sample Unit)).Invoke
        { id := 7 } (ascii "\x7b\"Name\":\"Bob\"\x7d") emptyWorld
      = (Outcome.ret (some (ascii "\x7b\"Msg\":\"hi Bob\"\x7d")) Option.none,
          { calls := [[Value.context { id := 7 },
              Value.data (Sample.record (ascii "Name") (ascii "Bob"))]], state := () }) ∧
    ∃ args result last out,
      [[Value.context { id := 7 }, Value.data (Sample.record (ascii "Name") (ascii "Bob"))]]
        = emptyWorld.calls ++ [args] ∧
      (greeter.fn args emptyWorld.state).1 = [result, last] ∧
      sampleJson.encode false "" "" result = .ok out ∧
      out = ascii "\x7b\"Msg\":\"hi Bob\"\x7d" ++ [newline] ∧
      (ascii "\x7b\"Msg\":\"hi Bob\"\x7d").getLast? ≠ some newline :=
  ⟨rfl,
    default_config_strips_newline sampleJson greeter (defaultServer Sample Unit)
      greeter_valid rfl greeter_returnsDeclared sampleJson_endsWithNewline sampleJson_compact
      rfl rfl { id := 7 } (ascii "\x7b\"Name\":\"Bob\"\x7d") emptyWorld
      { calls := [[Value.context { id := 7 },
          Value.data (Sample.record (ascii "Name") (ascii "Bob"))]], state := () }
      (ascii "\x7b\"Msg\":\"hi Bob\"\x7d") rfl⟩

/-- C6: the adapter strips the encoder's final newline exactly when the indent
prefix and the indent value are both empty. For every valid handler and every
successful invocation, the returned bytes are the encoder's output less its
final newline in that case, and the encoder's output itself, newline included,
as soon as one of the two is not empty. The encoder is taken to end each value
with a newline, as `encoding/json` does. -/
theorem strip_iff_no_indent {α σ : Type} (json : Json α) (v : RawValue α σ)
    (s : server α σ) (hv : Valid v) (hnl : json.EndsWithNewline)
    (ctx : Context) (payload : Bytes) (w w' : World α σ) (bytes : Bytes)
    (hok : (reflectHandler json (some v) s).Invoke ctx payload w
      = (Outcome.ret (some bytes) Option.none, w')) :
    ∃ args out,
      w'.calls = w.calls ++ [args] ∧
      json.encode s.jsonResponseEscapeHTML s.jsonResponseIndentPrefix
        s.jsonResponseIndentValue (responseValue (v.fn args w.state).1) = .ok out ∧
      out.getLast? = some newline ∧
      ((s.jsonResponseIndentPrefix = "" ∧ s.jsonResponseIndentValue = "") →
        out = bytes ++ [newline]) ∧
      (¬ (s.jsonResponseIndentPrefix = "" ∧ s.jsonResponseIndentValue = "") → bytes = out) ∧
      (bytes ≠ out ↔ (s.jsonResponseIndentPrefix = "" ∧ s.jsonResponseIndentValue = "")) := by
  obtain ⟨args, _, hcalls, out, henc, hstrip, hkeep⟩ :=
    valid_invoke_ok json v s hv ctx payload w w' bytes hok
  have hlast := hnl _ _ _ _ _ henc
  have hsplit := take_pred_of_getLast? out newline hlast
  have hs : (s.jsonResponseIndentPrefix = "" ∧ s.jsonResponseIndentValue = "") →
      out = bytes ++ [newline] := by
    intro hboth
    rw [(hstrip hboth).2]
    exact hsplit.1
  refine ⟨args, out, hcalls, henc, hlast, hs, hkeep, ?_⟩
  constructor
  · intro hne
    by_contra hboth
    exact hne (hkeep hboth)
  · intro hboth hbo
    have h1 := congrArg List.length (hs hboth)
    rw [hbo] at h1
    simp at h1

/-- Witness for C6: with the indent prefix `>` and an empty indent value, Scenario
A's handler returns the indented text with its final newline. -/
theorem strip_iff_no_indent_witness :
    ∃ args out,
      [[Value.context { id := 7 }, Value.data (Sample.record (ascii "Name") (ascii "Bob"))]]
        = emptyWorld.calls ++ [args] ∧
      sampleJson.encode false ">" "" (responseValue (greeter.fn args emptyWorld.state).1)
        = .ok out ∧
      out.getLast? = some newline ∧
      (((">" : String) = "" ∧ ("" : String) = "") →
        out = ascii "\x7b\n>\"Msg\": \"hi Bob\"\n>\x7d\n" ++ [newline]) ∧
      (¬ ((">" : String) = "" ∧ ("" : String) = "") →
        ascii "\x7b\n>\"Msg\": \"hi Bob\"\n>\x7d\n" = out) ∧
      (ascii "\x7b\n>\"Msg\": \"hi Bob\"\n>\x7d\n" ≠ out ↔
        ((">" : String) = "" ∧ ("" : String) = "")) :=
  strip_iff_no_indent sampleJson greeter (prefixedServer Sample Unit) greeter_valid
    sampleJson_endsWithNewline { id := 7 } (ascii "\x7b\"Name\":\"Bob\"\x7d") emptyWorld
    { calls := [[Value.context { id := 7 },
        Value.data (Sample.record (ascii "Name") (ascii "Bob"))]], state := () }
    (ascii "\x7b\n>\"Msg\": \"hi Bob\"\n>\x7d\n") rfl

/-- C7: for every valid handler, if the last value the user function returns
is a non-nil error `e`, the invocation returns no bytes and that same `e`,
after the one call of the user function. This holds for every encoder and
every configuration: the result does not depend on them, nothing is encoded. -/
theorem user_error_returned {α σ : Type}
    (decode : ParamType → Bytes → Except GoError (Value α))
    (encode : Bool → String → String → Value α → Except GoError Bytes)
    (v : RawValue α σ) (s : server α σ) (hv : Valid v)
    (ctx : Context) (payload : Bytes) (w : World α σ) (event : Value α) (e : GoError)
    (hd : declaresEvent v.type = true → decode (eventType v.type) payload = .ok event)
    (he : (v.fn (expectedArgs v.type ctx event) w.state).1.getLast? = some (Value.error e)) :
    (reflectHandler { decode := decode, encode := encode } (some v) s).Invoke ctx payload w
      = (Outcome.ret Option.none (some e),
          { calls := w.calls ++ [expectedArgs v.type ctx event],
            state := (v.fn (expectedArgs v.type ctx event) w.state).2 }) := by
  rw [reflectHandler_valid _ v s hv,
    adapter_invoke_decoded _ v.type v.fn s hv.2.2.1 ctx payload w event hd,
    callAndRespond_error _ v.fn s _ w e he]

/-- Witness for C7: Scenario C's handler `func(event int) error` returning
`boom`, with an encoder that would fail if it were called. -/
theorem user_error_returned_witness :
    (reflectHandler { decode := sampleDecode, encode := failingEncode } (some boom)
        (prefixedServer Sample Nat)).Invoke { id := 7 } (ascii "42") { calls := [], state := 0 }
      = (Outcome.ret Option.none (some (errorsNew "boom")),
          { calls := [] ++ [expectedArgs boom.type { id := 7 } (Value.data (Sample.int 42))],
            state := (boom.fn (expectedArgs boom.type { id := 7 }
              (Value.data (Sample.int 42))) 0).2 }) :=
  user_error_returned sampleDecode failingEncode boom (prefixedServer Sample Nat) boom_valid
    { id := 7 } (ascii "42") { calls := [], state := 0 } (Value.data (Sample.int 42))
    (errorsNew "boom") (fun _ => rfl) rfl

/-- C8: for every valid handler that declares an event argument and every
payload that fails to decode into the event type, the invocation returns no
bytes and the decode error, and the world is as before: the user function is
not called and nothing is left behind, so that any later invocation, and any
sequence of later invocations, goes as if the failed one had not happened. -/
theorem decode_error_returned {α σ : Type} (json : Json α) (v : RawValue α σ)
    (s : server α σ) (hv : Valid v) (hev : declaresEvent v.type = true)
    (ctx : Context) (payload : Bytes) (w : World α σ) (err : GoError)
    (hd : json.decode (eventType v.type) payload = .error err) :
    (reflectHandler json (some v) s).Invoke ctx payload w
        = (Outcome.ret Option.none (some err), w) ∧
      (∀ (ctx2 : Context) (payload2 : Bytes),
        (reflectHandler json (some v) s).Invoke ctx2 payload2
            ((reflectHandler json (some v) s).Invoke ctx payload w).2
          = (reflectHandler json (some v) s).Invoke ctx2 payload2 w) ∧
      (∀ (reqs : List (Context × Bytes)),
        invokeAll (reflectHandler json (some v) s) ((ctx, payload) :: reqs) w
          = (Outcome.ret Option.none (some err)
              :: (invokeAll (reflectHandler json (some v) s) reqs w).1,
            (invokeAll (reflectHandler json (some v) s) reqs w).2)) := by
  have h : (reflectHandler json (some v) s).Invoke ctx payload w
      = (Outcome.ret Option.none (some err), w) := by
    rw [reflectHandler_valid json v s hv, adapter_invoke json v.type v.fn s hv.2.2.1]
    simp [hev, hd]
  refine ⟨h, ?_, ?_⟩
  · intro ctx2 payload2
    rw [h]
  · intro reqs
    simp only [invokeAll, h]

/-- Witness for C8: Scenario A's handler on the empty payload fails with `EOF`
and is not called; the next invocation, on `{"Name":"Bob"}`, succeeds. -/
theorem decode_error_returned_witness :
    (reflectHandler sampleJson (some greeter) (defaultServer Sample Unit)).Invoke
        { id := 7 } [] emptyWorld
      = (Outcome.ret Option.none (some (errorsNew "EOF")), emptyWorld) ∧
    (invokeAll (reflectHandler sampleJson (some greeter) (defaultServer Sample Unit))
        [({ id := 7 }, []), ({ id := 8 }, ascii "\x7b\"Name\":\"Bob\"\x7d")] emptyWorld).1
      = [Outcome.ret Option.none (some (errorsNew "EOF")),
          Outcome.ret (some (ascii "\x7b\"Msg\":\"hi Bob\"\x7d")) Option.none] :=
  ⟨(decode_error_returned sampleJson greeter (defaultServer Sample Unit) greeter_valid rfl
      { id := 7 } [] emptyWorld (errorsNew "EOF") rfl).1,
    (congrArg Prod.fst
      ((decode_error_returned sampleJson greeter (defaultServer Sample Unit) greeter_valid rfl
        { id := 7 } [] emptyWorld (errorsNew "EOF") rfl).2.2
        [({ id := 8 }, ascii "\x7b\"Name\":\"Bob\"\x7d")])).trans (by decide)⟩

/-! ## Further helper lemmas -/

/-- The normalised handler depends on the server through the three
`jsonResponse` fields only. -/
theorem reflectHandler_config {α σ : Type} (json : Json α) (raw : Option (RawValue α σ))
    (s s2 : server α σ) (he : s.jsonResponseEscapeHTML = s2.jsonResponseEscapeHTML)
    (hp : s.jsonResponseIndentPrefix = s2.jsonResponseIndentPrefix)
    (hi : s.jsonResponseIndentValue = s2.jsonResponseIndentValue) :
    reflectHandler json raw s = reflectHandler json raw s2 := by
  obtain ⟨h1, b1, e1, p1, i1⟩ := s
  obtain ⟨h2, b2, e2, p2, i2⟩ := s2
  simp only [] at he hp hi
  subst he hp hi
  rfl

/-- A signature without parameters, or with a single `Context` parameter,
declares no event; the prescribed arguments are then the context or nothing. -/
theorem no_event_shape (t : HandlerType)
    (hno : t.NumIn = 0 ∨ (t.NumIn = 1 ∧ (t.In 0).Implements IfaceType.contextType = true)) :
    declaresEvent t = false ∧ (validateArguments t).2 = Option.none ∧
      ∀ (α : Type) (ctx : Context) (event : Value α),
        expectedArgs t ctx event = if t.NumIn = 0 then [] else [Value.context ctx] := by
  obtain ⟨k, ins, outs⟩ := t
  match ins, hno with
  | [], _ =>
    simp [declaresEvent, argShape, validateArguments, expectedArgs, firstIsContext,
      HandlerType.NumIn]
  | [a], hno =>
    have hc : a.implementsContext = true := by
      rcases hno with h | h
      · simp [HandlerType.NumIn] at h
      · simpa [HandlerType.In, ParamType.Implements] using h.2
    simp [declaresEvent, argShape, validateArguments, expectedArgs, firstIsContext,
      HandlerType.NumIn, HandlerType.In, ParamType.Implements, hc]
  | a :: b :: rest, hno =>
    simp [HandlerType.NumIn] at hno

/-- With an encoder that ends its output with a newline, `respond` does not
panic: the slice expression of the strip branch stays in range. -/
theorem respond_not_panicked {α σ : Type} (json : Json α) (hnl : json.EndsWithNewline)
    (s : server α σ) (response : List (Value α)) (msg : String) :
    respond json s response ≠ Outcome.panicked msg := by
  unfold respond
  simp only []
  split
  · simp
  · split
    · simp
    · rename_i out hout
      have hlast := hnl _ _ _ _ _ hout
      have hne : out.length ≠ 0 := by
        intro h0
        have : out = [] := List.length_eq_zero.1 h0
        rw [this] at hlast
        simp at hlast
      split
      · simp [hne]
      · simp

/-- With such an encoder, a panic of the adapted call is the panic of
`handler.Call` on refused arguments, the world being as it was. -/
theorem callAndRespond_panicked {α σ : Type} (json : Json α) (hnl : json.EndsWithNewline)
    (fn : UserFunc α σ) (s : server α σ) (args : List (Value α)) (w : World α σ)
    (msg : String) (h : (callAndRespond json fn s args w).1 = Outcome.panicked msg) :
    fn.refuses args = some msg ∧
      callAndRespond json fn s args w = (Outcome.panicked msg, w) := by
  cases hr : fn.refuses args with
  | none =>
    rw [callAndRespond_accepted json fn s args w hr] at h
    exact absurd h (respond_not_panicked json hnl s _ msg)
  | some m =>
    rw [callAndRespond_refused json fn s args w m hr] at h ⊢
    simp only [Outcome.panicked.injEq] at h
    subst h
    exact ⟨rfl, rfl⟩

/-- With such an encoder, a panic of an invocation of the adapter is the panic
of `handler.Call` on refused arguments, the world being as it was. -/
theorem adapter_panicked {α σ : Type} (json : Json α) (hnl : json.EndsWithNewline)
    (t : HandlerType) (fn : UserFunc α σ) (takesContext : Bool) (s : server α σ)
    (ctx : Context) (payload : Bytes) (w : World α σ) (msg : String)
    (h : ((adapter json t fn takesContext s).Invoke ctx payload w).1 = Outcome.panicked msg) :
    ∃ args, fn.refuses args = some msg ∧
      (adapter json t fn takesContext s).Invoke ctx payload w = (Outcome.panicked msg, w) := by
  unfold adapter bytesHandlerFunc.Invoke at h ⊢
  simp only [] at h ⊢
  cases hb : ((t.NumIn == 1 && !takesContext) || t.NumIn == 2)
  · simp only [hb, Bool.false_eq_true, if_false] at h ⊢
    obtain ⟨h1, h2⟩ := callAndRespond_panicked json hnl fn s _ w msg h
    exact ⟨_, h1, h2⟩
  · simp only [hb, if_true] at h ⊢
    cases hdec : json.decode (t.In (t.NumIn - 1)) payload with
    | error err =>
      rw [hdec] at h
      simp at h
    | ok event =>
      rw [hdec] at h
      simp only [] at h ⊢
      obtain ⟨h1, h2⟩ := callAndRespond_panicked json hnl fn s _ w msg h
      exact ⟨_, h1, h2⟩

/-- The encoder modelled from the spec ends each value it writes with a newline. -/
theorem specEncode_endsWithNewline {α : Type}
    (decode : ParamType → Bytes → Except GoError (Value α))
    (marshal : Bool → String → String → Value α → Except GoError Bytes) :
    Json.EndsWithNewline { decode := decode, encode := specEncode marshal } := by
  intro esc pre ind v out h
  simp only [specEncode] at h
  split at h
  · cases h
    simp
  · cases h

/-- A raw handler that is nil or no `Handler` is normalised to an `errorHandler`
or to the adapter. -/
theorem reflectHandler_cases {α σ : Type} (json : Json α) (raw : Option (RawValue α σ))
    (s : server α σ) (hh : ∀ v, raw = some v → v.asHandler = Option.none) :
    (∃ err, reflectHandler json raw s = errorHandler err) ∨
      (∃ v takesContext, raw = some v ∧
        reflectHandler json raw s = adapter json v.type v.fn takesContext s) := by
  cases raw with
  | none => exact Or.inl ⟨_, rfl⟩
  | some v =>
    have hv := hh v rfl
    by_cases hk : v.type.Kind = Kind.func
    · by_cases hrej : (validateArguments v.type).2 ≠ Option.none ∨
          validateReturns v.type ≠ Option.none
      · exact Or.inl (reflectHandler_rejected json v s hv hk hrej)
      · have hok : Valid v := by
          refine ⟨hv, hk, ?_, ?_⟩
          · by_contra h; exact hrej (Or.inl h)
          · by_contra h; exact hrej (Or.inr h)
        exact Or.inr ⟨v, _, rfl, reflectHandler_valid json v s hok⟩
    · exact Or.inl ⟨_, reflectHandler_not_func json v s hv hk⟩

theorem sampleJson_encodesNil : sampleJson.EncodesNil := by
  intro esc pre ind
  rfl

theorem ctxOnly_valid : Valid ctxOnly := ⟨rfl, rfl, rfl, rfl⟩

theorem ticker_valid : Valid ticker := ⟨rfl, rfl, rfl, rfl⟩

/-- The embedding can express the panic of the slice expression: with an
encoder that succeeds and writes nothing, the default configuration panics. -/
theorem strip_panics_on_empty_output :
    ((reflectHandler { decode := sampleDecode, encode := emptyEncode } (some ticker)
        (defaultServer Sample Nat)).Invoke { id := 7 } [] { calls := [], state := 0 }).1
      = Outcome.panicked "slice bounds out of range [:-1]" := by
  decide

/-! ## The `Handler` shortcut -/

/-- C11: a raw handler value that already implements `Handler` is returned by
`reflectHandler` as it is, so every invocation of the normalised handler is
the invocation of the raw handler; this holds whatever the kind and the
signature of the value are, none of which is looked at. -/
theorem handler_returned_unchanged {α σ : Type} (json : Json α) (v : RawValue α σ)
    (s : server α σ) (h : Handler α σ) (hh : v.asHandler = some h) :
    reflectHandler json (some v) s = h ∧
      ∀ (ctx : Context) (payload : Bytes) (w : World α σ),
        (reflectHandler json (some v) s).Invoke ctx payload w = h.Invoke ctx payload w := by
  have e : reflectHandler json (some v) s = h := by
    unfold reflectHandler
    simp [hh]
  exact ⟨e, fun ctx payload w => by rw [e]⟩

/-- Witness for C11: a struct value with a method `Invoke`, which is not of
function kind, and a function with three parameters whose type has a method
`Invoke`, are both accepted and answer as their own `Invoke` does. -/
theorem handler_returned_unchanged_witness :
    (structHandler.type.Kind ≠ Kind.func ∧
      ((reflectHandler sampleJson (some structHandler) (defaultServer Sample Nat)).Invoke
          { id := 7 } [] { calls := [], state := 0 }).1
        = Outcome.ret (some (ascii "pong")) Option.none) ∧
    ((validateArguments tripleHandler.type).2 ≠ Option.none ∧
      ((reflectHandler sampleJson (some tripleHandler) (defaultServer Sample Nat)).Invoke
          { id := 7 } [] { calls := [], state := 0 }).1
        = Outcome.ret (some (ascii "ok")) Option.none) :=
  ⟨⟨by decide,
      congrArg Prod.fst
        ((handler_returned_unchanged sampleJson structHandler (defaultServer Sample Nat) _
          rfl).2 { id := 7 } [] { calls := [], state := 0 })⟩,
    ⟨by decide,
      congrArg Prod.fst
        ((handler_returned_unchanged sampleJson tripleHandler (defaultServer Sample Nat) _
          rfl).2 { id := 7 } [] { calls := [], state := 0 })⟩⟩

/-! ## `ServeHTTP` and `newServer` -/

theorem httpError_fresh (text : String) (code : Nat) :
    httpError ResponseWriter.fresh text code
      = { status := some code, body := utf8 text ++ [newline] } := rfl

theorem httpError_body (w : ResponseWriter) (text : String) (code : Nat) :
    (httpError w text code).body = w.body ++ (utf8 text ++ [newline]) := by
  obtain ⟨status, body⟩ := w
  cases status <;> rfl

theorem write_body_status (w : ResponseWriter) (d : Bytes) :
    (w.Write d).body = w.body ++ d ∧
      (w.status = Option.none → (w.Write d).status = some StatusOK) := by
  obtain ⟨status, body⟩ := w
  cases status <;> simp [ResponseWriter.Write, ResponseWriter.WriteHeader]

/-- C12 (amended): when the body is read and the handler's `Invoke` returns a
non-nil error `e`, `ServeHTTP` answers through `http.Error` with the status 500,
and the response body is the message text of `e` followed by one newline byte,
which `http.Error` adds; none of the bytes `Invoke` may have returned are
written. `Invoke` has been called once, on the base context and the body. -/
theorem serve_reports_invoke_error {α σ : Type} (s : server α σ) (h : Handler α σ)
    (hs : s.Handler = some h) (w : ResponseWriter) (req : Request) (st : ServeState α σ)
    (data : Option Bytes) (e : GoError) (world2 : World α σ)
    (hread : req.readErr = Option.none)
    (hinv : h.Invoke s.baseContext req.body st.world = (Outcome.ret data (some e), world2)) :
    s.ServeHTTP w req st
        = (Served.done (httpError w e.Error StatusInternalServerError),
            { world := world2, invoked := st.invoked ++ [(s.baseContext, req.body)] }) ∧
      (httpError w e.Error StatusInternalServerError).body
        = w.body ++ (utf8 e.Error ++ [newline]) ∧
      s.ServeHTTP ResponseWriter.fresh req st
        = (Served.done { status := some 500, body := utf8 e.Error ++ [newline] },
            { world := world2, invoked := st.invoked ++ [(s.baseContext, req.body)] }) := by
  have key : ∀ w0 : ResponseWriter, s.ServeHTTP w0 req st
      = (Served.done (httpError w0 e.Error StatusInternalServerError),
          { world := world2, invoked := st.invoked ++ [(s.baseContext, req.body)] }) := by
    intro w0
    unfold server.ServeHTTP
    simp only [ioutilReadAll, hread, hs, hinv]
  refine ⟨key w, httpError_body w _ _, ?_⟩
  rw [key ResponseWriter.fresh, httpError_fresh]
  rfl

/-- Witness for C12 (amended): Scenario C. The handler `func(event int) error`
returning `boom`, served by `newServer`, answers 500 with the body `boom` and a
newline. -/
theorem serve_reports_invoke_error_witness :
    (newServer sampleJson (some boom)).ServeHTTP ResponseWriter.fresh (requestOf (ascii "42"))
        { world := { calls := [], state := 0 }, invoked := [] }
      = (Served.done { status := some 500, body := utf8 (errorsNew "boom").Error ++ [newline] },
          { world := { calls := [[Value.data (Sample.int 42)]], state := 1 },
            invoked := [] ++ [((newServer sampleJson (some boom)).baseContext,
              (requestOf (ascii "42")).body)] }) :=
  (serve_reports_invoke_error (newServer sampleJson (some boom))
    (reflectHandler sampleJson (some boom) (defaultServer Sample Nat)) rfl
    ResponseWriter.fresh (requestOf (ascii "42"))
    { world := { calls := [], state := 0 }, invoked := [] } Option.none (errorsNew "boom")
    { calls := [[Value.data (Sample.int 42)]], state := 1 } rfl rfl).2.2

/-- Counterexample to C12 as stated: for Scenario C the response body is the
five bytes of `boom` and a newline, not the four bytes of the message text. -/
theorem serve_error_body_counterexample :
    (requestOf (ascii "42")).readErr = Option.none ∧
      ((reflectHandler sampleJson (some boom) (defaultServer Sample Nat)).Invoke
          contextBackground (ascii "42") { calls := [], state := 0 }).1
        = Outcome.ret Option.none (some (errorsNew "boom")) ∧
      ((newServer sampleJson (some boom)).ServeHTTP ResponseWriter.fresh
          (requestOf (ascii "42")) { world := { calls := [], state := 0 }, invoked := [] }).1
        = Served.done { status := some 500, body := [98, 111, 111, 109, 10] } ∧
      ((newServer sampleJson (some boom)).ServeHTTP ResponseWriter.fresh
          (requestOf (ascii "42")) { world := { calls := [], state := 0 }, invoked := [] }).1
        ≠ Served.done { status := some 500, body := utf8 (errorsNew "boom").Error } := by
  decide

/-- C13: when the body cannot be read, `ServeHTTP` answers through `http.Error`
with the status 400 and the message `can't read body`, and nothing else
happens: the log of `Invoke` calls and the world of the handler are as before,
so `Invoke` is not called for that request. -/
theorem serve_unreadable_body {α σ : Type} (s : server α σ) (w : ResponseWriter)
    (req : Request) (st : ServeState α σ) (err : GoError) (hread : req.readErr = some err) :
    s.ServeHTTP w req st
        = (Served.done (httpError w "can't read body" StatusBadRequest), st) ∧
      s.ServeHTTP ResponseWriter.fresh req st
        = (Served.done { status := some 400, body := utf8 "can't read body" ++ [newline] },
            st) := by
  have key : ∀ w0 : ResponseWriter, s.ServeHTTP w0 req st
      = (Served.done (httpError w0 "can't read body" StatusBadRequest), st) := by
    intro w0
    unfold server.ServeHTTP
    simp only [ioutilReadAll, hread]
  refine ⟨key w, ?_⟩
  rw [key ResponseWriter.fresh, httpError_fresh]
  rfl

/-- Witness for C13: Scenario D, with Scenario A's handler behind the server. -/
theorem serve_unreadable_body_witness :
    ((newServer sampleJson (some greeter)).ServeHTTP ResponseWriter.fresh brokenRequest
        { world := emptyWorld, invoked := [] }).1
      = Served.done { status := some 400, body := utf8 "can't read body" ++ [newline] } ∧
    ((newServer sampleJson (some greeter)).ServeHTTP ResponseWriter.fresh brokenRequest
        { world := emptyWorld, invoked := [] }).2.invoked = [] :=
  ⟨congrArg Prod.fst
      (serve_unreadable_body (newServer sampleJson (some greeter)) ResponseWriter.fresh
        brokenRequest { world := emptyWorld, invoked := [] } (errorsNew "unexpected EOF")
        rfl).2,
    congrArg (fun r => r.2.invoked)
      (serve_unreadable_body (newServer sampleJson (some greeter)) ResponseWriter.fresh
        brokenRequest { world := emptyWorld, invoked := [] } (errorsNew "unexpected EOF")
        rfl).2⟩

/-- C14: when the body is read, `ServeHTTP` calls `Invoke` exactly once, on the
server's base context and the whole body, and its effect on the world is that
of this call; if `Invoke` returns the bytes `d` and a nil error, the response is
`w.Write(d)`: the body grows by exactly `d`, and on a response writer without a
header the status is 200. -/
theorem serve_invokes_once_and_writes {α σ : Type} (s : server α σ) (h : Handler α σ)
    (hs : s.Handler = some h) (w : ResponseWriter) (req : Request) (st : ServeState α σ)
    (hread : req.readErr = Option.none) :
    (s.ServeHTTP w req st).2
        = { world := (h.Invoke s.baseContext req.body st.world).2,
            invoked := st.invoked ++ [(s.baseContext, req.body)] } ∧
      ∀ d : Bytes,
        (h.Invoke s.baseContext req.body st.world).1 = Outcome.ret (some d) Option.none →
          (s.ServeHTTP w req st).1 = Served.done (w.Write d) ∧
          (w.Write d).body = w.body ++ d ∧
          (w.status = Option.none → (w.Write d).status = some StatusOK) ∧
          (s.ServeHTTP ResponseWriter.fresh req st).1
            = Served.done { status := some 200, body := d } := by
  constructor
  · unfold server.ServeHTTP
    simp only [ioutilReadAll, hread, hs]
    split
    · rfl
    · split <;> rfl
  · intro d hd
    have key : ∀ w0 : ResponseWriter, (s.ServeHTTP w0 req st).1 = Served.done (w0.Write d) := by
      intro w0
      unfold server.ServeHTTP
      simp only [ioutilReadAll, hread, hs, hd]
      rfl
    refine ⟨key w, (write_body_status w d).1, (write_body_status w d).2, ?_⟩
    rw [key ResponseWriter.fresh]
    rfl

/-- Witness for C14: Scenario A served by `newServer`: one call of `Invoke` on
the background context and the body, status 200 and the body `{"Msg":"hi Bob"}`. -/
theorem serve_invokes_once_and_writes_witness :
    ((newServer sampleJson (some greeter)).ServeHTTP ResponseWriter.fresh
        (requestOf (ascii "\x7b\"Name\":\"Bob\"\x7d"))
        { world := emptyWorld, invoked := [] }).2.invoked
      = [(contextBackground, ascii "\x7b\"Name\":\"Bob\"\x7d")] ∧
    ((newServer sampleJson (some greeter)).ServeHTTP ResponseWriter.fresh
        (requestOf (ascii "\x7b\"Name\":\"Bob\"\x7d"))
        { world := emptyWorld, invoked := [] }).1
      = Served.done { status := some 200, body := ascii "\x7b\"Msg\":\"hi Bob\"\x7d" } :=
  ⟨congrArg ServeState.invoked
      (serve_invokes_once_and_writes (newServer sampleJson (some greeter))
        (reflectHandler sampleJson (some greeter) (defaultServer Sample Unit)) rfl
        ResponseWriter.fresh (requestOf (ascii "\x7b\"Name\":\"Bob\"\x7d"))
        { world := emptyWorld, invoked := [] } rfl).1,
    ((serve_invokes_once_and_writes (newServer sampleJson (some greeter))
        (reflectHandler sampleJson (some greeter) (defaultServer Sample Unit)) rfl
        ResponseWriter.fresh (requestOf (ascii "\x7b\"Name\":\"Bob\"\x7d"))
        { world := emptyWorld, invoked := [] } rfl).2
      (ascii "\x7b\"Msg\":\"hi Bob\"\x7d") rfl).2.2.2⟩

/-- C16: for every raw handler, `newServer` returns a server with HTML escaping
off, an empty indent prefix and an empty indent value, whose `Handler` is
`reflectHandler` applied to that raw handler and that same server. So the test
that guards the strip branch holds, and every successful invocation of an
adapter built through `newServer` returns the encoder's output less its final
newline (the encoder ending each value with a newline). -/
theorem newServer_default_config {α σ : Type} (json : Json α) (raw : Option (RawValue α σ)) :
    (newServer json raw).jsonResponseEscapeHTML = false ∧
    (newServer json raw).jsonResponseIndentPrefix = "" ∧
    (newServer json raw).jsonResponseIndentValue = "" ∧
    (newServer json raw).baseContext = contextBackground ∧
    (newServer json raw).Handler = some (reflectHandler json raw (newServer json raw)) ∧
    ((newServer json raw).jsonResponseIndentValue == "" &&
      (newServer json raw).jsonResponseIndentPrefix == "") = true ∧
    (json.EndsWithNewline → ∀ v, raw = some v → Valid v →
      ∀ (ctx : Context) (payload : Bytes) (w w2 : World α σ) (bytes : Bytes),
        (reflectHandler json raw (newServer json raw)).Invoke ctx payload w
            = (Outcome.ret (some bytes) Option.none, w2) →
          ∃ args out, w2.calls = w.calls ++ [args] ∧
            json.encode false "" "" (responseValue (v.fn args w.state).1) = .ok out ∧
            out = bytes ++ [newline] ∧ bytes ≠ out) := by
  refine ⟨rfl, rfl, rfl, rfl, ?_, rfl, ?_⟩
  · exact congrArg some (reflectHandler_config json raw _ (newServer json raw) rfl rfl rfl)
  · intro hnl v hraw hv ctx payload w w2 bytes hok
    subst hraw
    obtain ⟨args, _, hcalls, out, henc, hstrip, _⟩ :=
      valid_invoke_ok json v (newServer json (some v)) hv ctx payload w w2 bytes hok
    have henc2 : json.encode false "" "" (responseValue (v.fn args w.state).1) = .ok out := henc
    have hlast := hnl _ _ _ _ _ henc2
    have hsplit := take_pred_of_getLast? out newline hlast
    have hb := (hstrip ⟨rfl, rfl⟩).2
    have hout : out = bytes ++ [newline] := by
      rw [hb]
      exact hsplit.1
    refine ⟨args, out, hcalls, henc2, hout, ?_⟩
    intro hbo
    have h1 := congrArg List.length hout
    rw [← hbo] at h1
    simp at h1

/-- Witness for C16: Scenario A's handler behind `newServer`. -/
theorem newServer_default_config_witness :
    (newServer sampleJson (some greeter)).Handler
        = some (reflectHandler sampleJson (some greeter) (newServer sampleJson (some greeter))) ∧
    ∃ args out,
      [[Value.context { id := 7 }, Value.data (Sample.record (ascii "Name") (ascii "Bob"))]]
        = emptyWorld.calls ++ [args] ∧
      sampleJson.encode false "" "" (responseValue (greeter.fn args emptyWorld.state).1)
        = .ok out ∧
      out = ascii "\x7b\"Msg\":\"hi Bob\"\x7d" ++ [newline] ∧
      ascii "\x7b\"Msg\":\"hi Bob\"\x7d" ≠ out :=
  ⟨(newServer_default_config sampleJson (some greeter)).2.2.2.2.1,
    (newServer_default_config sampleJson (some greeter)).2.2.2.2.2.2
      sampleJson_endsWithNewline greeter rfl greeter_valid { id := 7 }
      (ascii "\x7b\"Name\":\"Bob\"\x7d") emptyWorld
      { calls := [[Value.context { id := 7 },
          Value.data (Sample.record (ascii "Name") (ascii "Bob"))]], state := () }
      (ascii "\x7b\"Msg\":\"hi Bob\"\x7d") rfl⟩

/-! ## Round trip, null responses, the strip and the unread payload -/

/-- C17 (amended): for every valid handler whose call returns no value, or the
nil error (the nil interface) as its only value, every invocation that passes
decoding and whose arguments `handler.Call` accepts succeeds with the encoding
of the nil interface: without indentation the four bytes `null`, with
indentation the encoder's output `null` and its newline. The encoder is taken
to write `null` and a newline for the nil interface, as `encoding/json` does. -/
theorem no_payload_returns_null {α σ : Type} (json : Json α) (v : RawValue α σ)
    (s : server α σ) (hv : Valid v) (hnil : json.EncodesNil)
    (ctx : Context) (payload : Bytes) (w : World α σ) (event : Value α)
    (hd : declaresEvent v.type = true → json.decode (eventType v.type) payload = .ok event)
    (hacc : v.fn.refuses (expectedArgs v.type ctx event) = Option.none)
    (hresp : (v.fn (expectedArgs v.type ctx event) w.state).1 = [] ∨
      (v.fn (expectedArgs v.type ctx event) w.state).1 = [Value.nil]) :
    json.encode s.jsonResponseEscapeHTML s.jsonResponseIndentPrefix s.jsonResponseIndentValue
        Value.nil = .ok (ascii "null" ++ [newline]) ∧
      ((s.jsonResponseIndentPrefix = "" ∧ s.jsonResponseIndentValue = "") →
        ((reflectHandler json (some v) s).Invoke ctx payload w).1
          = Outcome.ret (some (ascii "null")) Option.none) ∧
      (¬ (s.jsonResponseIndentPrefix = "" ∧ s.jsonResponseIndentValue = "") →
        ((reflectHandler json (some v) s).Invoke ctx payload w).1
          = Outcome.ret (some (ascii "null" ++ [newline])) Option.none) := by
  have henc := hnil s.jsonResponseEscapeHTML s.jsonResponseIndentPrefix s.jsonResponseIndentValue
  have hi := adapter_invoke_decoded json v.type v.fn s hv.2.2.1 ctx payload w event hd
  rw [reflectHandler_valid json v s hv, hi, callAndRespond_accepted json v.fn s _ w hacc]
  have hval : responseValue (v.fn (expectedArgs v.type ctx event) w.state).1 = Value.nil := by
    rcases hresp with h | h <;> simp [h, responseValue]
  have herr : (if (v.fn (expectedArgs v.type ctx event) w.state).1.length > 0 then
      ((v.fn (expectedArgs v.type ctx event) w.state).1.getD
        ((v.fn (expectedArgs v.type ctx event) w.state).1.length - 1) Value.nil).asError
      else Option.none) = Option.none := by
    rcases hresp with h | h <;> simp [h, Value.asError]
  refine ⟨henc, ?_, ?_⟩
  · rintro ⟨hp, hind⟩
    rw [hp, hind] at henc
    unfold respond
    simp only [herr, hval, hp, hind, henc]
    rfl
  · intro hn
    have hb : (s.jsonResponseIndentValue == "" && s.jsonResponseIndentPrefix == "") = false := by
      cases hb : (s.jsonResponseIndentValue == "" && s.jsonResponseIndentPrefix == "")
      · rfl
      · simp only [Bool.and_eq_true, beq_iff_eq] at hb
        exact absurd ⟨hb.2, hb.1⟩ hn
    unfold respond
    simp only [herr, hval, henc, hb]
    simp

/-- Witness for C17 (amended): `func()` under the default configuration returns
`null`, and `func(ctx context.Context) error` returning nil under an indent
prefix returns `null` and a newline. -/
theorem no_payload_returns_null_witness :
    ((reflectHandler sampleJson (some ticker) (defaultServer Sample Nat)).Invoke
        { id := 7 } [] { calls := [], state := 0 }).1
      = Outcome.ret (some (ascii "null")) Option.none ∧
    ((reflectHandler sampleJson (some ctxOnly) (prefixedServer Sample Unit)).Invoke
        { id := 7 } [] emptyWorld).1
      = Outcome.ret (some (ascii "null" ++ [newline])) Option.none :=
  ⟨(no_payload_returns_null sampleJson ticker (defaultServer Sample Nat) ticker_valid
      sampleJson_encodesNil { id := 7 } [] { calls := [], state := 0 } Value.nil
      (fun h => by cases h) rfl (Or.inl rfl)).2.1 ⟨rfl, rfl⟩,
    (no_payload_returns_null sampleJson ctxOnly (prefixedServer Sample Unit) ctxOnly_valid
      sampleJson_encodesNil { id := 7 } [] emptyWorld Value.nil
      (fun h => by cases h) rfl (Or.inr rfl)).2.2 (by decide)⟩

/-- Counterexample to C17 as stated: the variadic `func(xs ...byte) {}` passes
both validations and has no return value, and the payload `[]` decodes into
its event type `[]byte`; yet the invocation does not succeed with `null`, it
panics in `handler.Call`, the function not being called. -/
theorem no_payload_counterexample :
    variadicBytes.asHandler = Option.none ∧ variadicBytes.type.Kind = Kind.func ∧
      validateArguments variadicBytes.type = (false, Option.none) ∧
      validateReturns variadicBytes.type = Option.none ∧
      variadicBytes.type.NumOut = 0 ∧
      sampleJson.decode (eventType variadicBytes.type) (ascii "[]")
        = .ok (Value.data (Sample.bytes [])) ∧
      (reflectHandler sampleJson (some variadicBytes) (defaultServer Sample Nat)).Invoke
          { id := 7 } (ascii "[]") { calls := [], state := 0 }
        = (Outcome.panicked "reflect: cannot use []uint8 as type uint8 in Call",
            { calls := [], state := 0 }) ∧
      ((reflectHandler sampleJson (some variadicBytes) (defaultServer Sample Nat)).Invoke
          { id := 7 } (ascii "[]") { calls := [], state := 0 }).1
        ≠ Outcome.ret (some (ascii "null")) Option.none :=
  ⟨rfl, rfl, rfl, rfl, rfl, rfl, rfl, by decide⟩

/-- C18: the slice expression of the strip branch stays in range. For the
encoder modelled from the spec, which ends each value it writes with the
newline terminator, a successful `Encode` leaves a buffer of at least one byte
whose last byte is the newline, and the slice is the JSON text before it. So
`respond`, the part of the closure that holds the slice expression, panics for
no configuration and no returned values; and when an invocation built by
`reflectHandler` for a raw handler that is not itself a `Handler` does panic,
the panic is that of `handler.Call` refusing its arguments, with the world as
it was. -/
theorem strip_never_out_of_range {α : Type}
    (decode : ParamType → Bytes → Except GoError (Value α))
    (marshal : Bool → String → String → Value α → Except GoError Bytes) :
    (∀ (esc : Bool) (pre ind : String) (v : Value α) (out : Bytes),
      specEncode marshal esc pre ind v = .ok out →
        out.length ≥ 1 ∧ out.getLast? = some newline ∧
          out.take (out.length - 1) ++ [newline] = out ∧
          marshal esc pre ind v = .ok (out.take (out.length - 1))) ∧
    (∀ (σ : Type) (s : server α σ) (response : List (Value α)) (msg : String),
      respond { decode := decode, encode := specEncode marshal } s response
        ≠ Outcome.panicked msg) ∧
    (∀ (σ : Type) (raw : Option (RawValue α σ)) (s : server α σ) (ctx : Context)
        (payload : Bytes) (w : World α σ) (msg : String),
      (∀ v, raw = some v → v.asHandler = Option.none) →
      ((reflectHandler { decode := decode, encode := specEncode marshal } raw s).Invoke
          ctx payload w).1 = Outcome.panicked msg →
        ∃ v args, raw = some v ∧ v.fn.refuses args = some msg ∧
          (reflectHandler { decode := decode, encode := specEncode marshal } raw s).Invoke
              ctx payload w = (Outcome.panicked msg, w)) := by
  have hnl := specEncode_endsWithNewline decode marshal
  refine ⟨?_, ?_, ?_⟩
  · intro esc pre ind v out h
    simp only [specEncode] at h
    split at h
    · rename_i text htext
      cases h
      simp [htext]
    · cases h
  · intro σ s response msg
    exact respond_not_panicked _ hnl s response msg
  · intro σ raw s ctx payload w msg hh hp
    rcases reflectHandler_cases { decode := decode, encode := specEncode marshal } raw s hh
      with ⟨err, he⟩ | ⟨v, tc, hraw, he⟩
    · rw [he, errorHandler_invoke] at hp
      simp at hp
    · rw [he] at hp ⊢
      obtain ⟨args, h1, h2⟩ := adapter_panicked _ hnl v.type v.fn tc s ctx payload w msg hp
      exact ⟨v, args, hraw, h1, h2⟩

/-- Witness for C18: with the sample JSON text under the modelled encoder, no
returned values make `respond` panic, and the one panic among the sample
handlers, that of the variadic `func(xs ...byte) {}`, is the refusal of
`handler.Call`. -/
theorem strip_never_out_of_range_witness :
    respond { decode := sampleDecode,
              encode := specEncode (fun _ pre ind v => sampleMarshal pre ind v) }
        (defaultServer Sample Nat) [Value.data (Sample.bytes []), Value.nil]
      ≠ Outcome.panicked "slice bounds out of range [:-1]" ∧
    ∃ v args, some variadicBytes = some v ∧
      v.fn.refuses args = some "reflect: cannot use []uint8 as type uint8 in Call" ∧
      (reflectHandler { decode := sampleDecode,
                        encode := specEncode (fun _ pre ind v => sampleMarshal pre ind v) }
          (some variadicBytes) (defaultServer Sample Nat)).Invoke { id := 7 } (ascii "[]")
          { calls := [], state := 0 }
        = (Outcome.panicked "reflect: cannot use []uint8 as type uint8 in Call",
            { calls := [], state := 0 }) :=
  ⟨(strip_never_out_of_range sampleDecode (fun _ pre ind v => sampleMarshal pre ind v)).2.1
      Nat (defaultServer Sample Nat) [Value.data (Sample.bytes []), Value.nil]
      "slice bounds out of range [:-1]",
    (strip_never_out_of_range sampleDecode (fun _ pre ind v => sampleMarshal pre ind v)).2.2
      Nat (some variadicBytes) (defaultServer Sample Nat) { id := 7 } (ascii "[]")
      { calls := [], state := 0 } "reflect: cannot use []uint8 as type uint8 in Call"
      (fun v h => by cases h; rfl) rfl⟩

/-- C19 (amended): for every valid handler without an event argument (no
parameter, or a single `Context` parameter) the adapter does not read the
payload: for any two payloads, and any two decoders, even ones that fail on
every input, the two invocations give the same outcome and the same world,
hence the same log of calls of the user function, and no decode error occurs.
When `handler.Call` accepts the arguments, which are the context or nothing,
each invocation calls the user function once on them and its outcome is
`respond` on the returned values. -/
theorem no_event_ignores_payload {α σ : Type}
    (decode1 decode2 : ParamType → Bytes → Except GoError (Value α))
    (encode : Bool → String → String → Value α → Except GoError Bytes)
    (v : RawValue α σ) (s : server α σ) (hv : Valid v)
    (hno : v.type.NumIn = 0 ∨
      (v.type.NumIn = 1 ∧ (v.type.In 0).Implements IfaceType.contextType = true))
    (ctx : Context) (p1 p2 : Bytes) (w : World α σ) :
    (reflectHandler { decode := decode1, encode := encode } (some v) s).Invoke ctx p1 w
        = (reflectHandler { decode := decode2, encode := encode } (some v) s).Invoke ctx p2 w ∧
      ((reflectHandler { decode := decode1, encode := encode } (some v) s).Invoke ctx p1 w).2.calls
        = ((reflectHandler { decode := decode2, encode := encode } (some v) s).Invoke
            ctx p2 w).2.calls ∧
      (v.fn.refuses (if v.type.NumIn = 0 then [] else [Value.context ctx]) = Option.none →
        (reflectHandler { decode := decode1, encode := encode } (some v) s).Invoke ctx p1 w
          = (respond { decode := decode2, encode := encode } s
                (v.fn.run (if v.type.NumIn = 0 then [] else [Value.context ctx]) w.state).1,
              { calls := w.calls ++ [if v.type.NumIn = 0 then [] else [Value.context ctx]],
                state :=
                  (v.fn.run (if v.type.NumIn = 0 then [] else [Value.context ctx])
                    w.state).2 })) := by
  have hshape := no_event_shape v.type hno
  have h1 := adapter_invoke_decoded { decode := decode1, encode := encode } v.type v.fn s
    hv.2.2.1 ctx p1 w Value.nil (by simp [hshape.1])
  have h2 := adapter_invoke_decoded { decode := decode2, encode := encode } v.type v.fn s
    hv.2.2.1 ctx p2 w Value.nil (by simp [hshape.1])
  rw [reflectHandler_valid _ v s hv, reflectHandler_valid _ v s hv, h1, h2,
    hshape.2.2 α ctx Value.nil]
  refine ⟨rfl, rfl, ?_⟩
  intro hacc
  rw [callAndRespond_accepted _ v.fn s _ w hacc, result_accepted v.fn _ w.state hacc]
  rfl

/-- Witness for C19 (amended): `func(ctx context.Context) error` gives the same answer on
the empty payload with the sample decoder and on a malformed payload with a
decoder that always fails. -/
theorem no_event_ignores_payload_witness :
    (reflectHandler { decode := sampleDecode, encode := sampleEncode } (some ctxOnly)
        (defaultServer Sample Unit)).Invoke { id := 7 } [] emptyWorld
      = (reflectHandler { decode := failingDecode, encode := sampleEncode } (some ctxOnly)
        (defaultServer Sample Unit)).Invoke { id := 7 } (ascii "\x7b") emptyWorld :=
  (no_event_ignores_payload sampleDecode failingDecode sampleEncode ctxOnly
    (defaultServer Sample Unit) ctxOnly_valid (Or.inr ⟨rfl, rfl⟩) { id := 7 } []
    (ascii "\x7b") emptyWorld).1

/-- Counterexample to C19 as stated: `func(c myCtx) error`, whose one parameter
implements `Context`, passes both validations and declares no event; on the
empty payload and on a malformed one alike the invocation panics in
`handler.Call`, to which the context is not assignable: the user function is
not called and no result is returned. -/
theorem no_event_counterexample :
    customCtx.asHandler = Option.none ∧ customCtx.type.Kind = Kind.func ∧
      validateArguments customCtx.type = (true, Option.none) ∧
      validateReturns customCtx.type = Option.none ∧
      customCtx.type.NumIn = 1 ∧
      (customCtx.type.In 0).Implements IfaceType.contextType = true ∧
      (reflectHandler sampleJson (some customCtx) (defaultServer Sample Nat)).Invoke
          contextBackground [] { calls := [], state := 0 }
        = (Outcome.panicked
            "reflect: Call using context.backgroundCtx as type functions.myCtx",
            { calls := [], state := 0 }) ∧
      (reflectHandler sampleJson (some customCtx) (defaultServer Sample Nat)).Invoke
          contextBackground (ascii "\x7b") { calls := [], state := 0 }
        = (Outcome.panicked
            "reflect: Call using context.backgroundCtx as type functions.myCtx",
            { calls := [], state := 0 }) :=
  ⟨rfl, rfl, rfl, rfl, rfl, rfl, rfl, rfl⟩

end Functions
